import Mathlib

/-!
Verification model of the `annotload` annotation loader (`annotload.py` together
with `lib/vocabloadlib.py`).  The Python program is embedded shallowly: every
global that the per-line pipeline mutates becomes a field of `LoadState`, every
read-only cache or configuration value becomes a field of `Env`, and each Python
function becomes a Lean function of the same name threading the state
explicitly.  Database statements are recorded as `DbOp` values together with
the flag saying whether they were actually executed (`execute = not DEBUG` in
the source).  Output files (`.bcp` sinks, the error file, stderr) are modelled
as lists of rows / strings in the state.
-/

namespace Annotload

/-! ### Decimal rendering of integers

Python renders the integer keys with `'%s' % n` / `'%d' % n`, i.e. as decimal
digit strings.  `natStr` is a fuel-based (hence kernel-computable) model of
`str(n)` for natural `n`. -/

/-- Decimal digit list of `n` (most significant first); `fuel` bounds the
recursion and is sufficient whenever `n < fuel`. -/
def natDigitsAux : Nat → Nat → List Nat
  | 0, _ => []
  | fuel + 1, n => if n < 10 then [n] else natDigitsAux fuel (n / 10) ++ [n % 10]

/-- Decimal digit list of `n`, most significant digit first. -/
def natDigits (n : Nat) : List Nat := natDigitsAux (n + 1) n

/-- Model of Python `str(n)` for a natural number: its decimal digit string. -/
def natStr (n : Nat) : String := String.mk ((natDigits n).map Nat.digitChar)

/-! ### Python string primitives -/

/-- Boolean list-prefix test used by the splitter. -/
def isPrefixL : List Char → List Char → Bool
  | [], _ => true
  | _ :: _, [] => false
  | a :: as, b :: bs => a == b && isPrefixL as bs

/-- Work loop of `pySplit`: scans `s` left to right, splitting at each
non-overlapping occurrence of `sep` (Python `str.split(s, sep)` semantics for a
non-empty separator).  `acc` holds the current field reversed, `fuel` bounds
the recursion (`s.length` suffices for a non-empty separator). -/
def pySplitGo (sep : List Char) : Nat → List Char → List Char → List (List Char)
  | _, [], acc => [acc.reverse]
  | 0, _ :: _, acc => [acc.reverse]
  | fuel + 1, c :: cs, acc =>
    if isPrefixL sep (c :: cs) then
      acc.reverse :: pySplitGo sep fuel (List.drop sep.length (c :: cs)) []
    else
      pySplitGo sep fuel cs (c :: acc)

/-- Model of Python `str.split(s, sep)` for a non-empty separator `sep`. -/
def pySplit (s sep : String) : List String :=
  (pySplitGo sep.data s.data.length s.data []).map String.mk

/-- The whitespace class stripped by Python `str.strip()`. -/
def pyIsSpace (c : Char) : Bool :=
  c == ' ' || c == '\t' || c == '\n' || c == '\r' || c == '\x0b' || c == '\x0c'

/-- Model of Python `str.strip()`. -/
def pyStrip (s : String) : String :=
  String.mk (((s.data.dropWhile pyIsSpace).reverse.dropWhile pyIsSpace).reverse)

/-- Model of Python `line[:-1]` (drop the final character, e.g. the newline). -/
def pyDropLast (s : String) : String := String.mk s.data.dropLast

/-- Python `x is None` applied to a value that is always an `int`: identically
false.  `verifyMode` in the source tests `delByReferenceKey is None`, but
`verifyReference` returns the integer `0` for an unknown reference, so the
test can never succeed. -/
def pyIsNone (_ : Nat) : Bool := false

/-! ### Dictionaries (Python `dict`) as association lists -/

/-- Lookup in an association list (the model of a Python `dict`). -/
def alookup {α : Type} [DecidableEq α] (m : List (α × Nat)) (k : α) : Option Nat :=
  match m with
  | [] => none
  | (k', v) :: t => if k' = k then some v else alookup t k

/-- Removal of a key (Python `del d[k]`, used by the mcv variant). -/
def aremove {α : Type} [DecidableEq α] (m : List (α × Nat)) (k : α) : List (α × Nat) :=
  match m with
  | [] => []
  | (k', v) :: t => if k' = k then aremove t k else (k', v) :: aremove t k

/-- Membership in the evidence-key set (`eKey in evidenceDict`). -/
def elemS (k : String) : List String → Bool
  | [] => false
  | h :: t => k == h || elemS k t

/-! ### Sink rows

One structure per bcp output file.  In the source each row repeats the editor
key and the entry date twice (`createdBy/modifiedBy`, `creation/modification`
date); the duplicated columns are represented once. -/

/-- A `VOC_Annot` bcp row. -/
structure AnnotRow where
  annotKey : Nat
  annotTypeKey : Nat
  objectKey : Nat
  termKey : Nat
  qualifierKey : Nat
  entryDate : String
deriving DecidableEq

/-- A `VOC_Evidence` bcp row. -/
structure EvidenceRow where
  annotEvidenceKey : Nat
  annotKey : Nat
  evidenceTermKey : Nat
  refsKey : Nat
  inferredFrom : String
  editorKey : Nat
  entryDate : String
deriving DecidableEq

/-- An `MGI_Note` bcp row (`_MGIType_key = 25`, `_NoteType_key = 1008`). -/
structure NoteRow where
  noteKey : Nat
  annotEvidenceKey : Nat
  mgiTypeKey : Nat
  noteTypeKey : Nat
  notes : String
  editorKey : Nat
  entryDate : String
deriving DecidableEq

/-- A `VOC_Evidence_Property` bcp row. -/
structure PropRow where
  propertyKey : Nat
  annotEvidenceKey : Nat
  termKey : Nat
  stanza : Nat
  seqnum : Nat
  value : String
  editorKey : Nat
  entryDate : String
deriving DecidableEq

/-! ### Database operations -/

/-- Deletion scope selected by `verifyMode` for the `toDelete` temp table. -/
inductive Scope where
  | byReference (refsKey : Nat)
  | byUser (login : String)
  | allOfType
deriving DecidableEq

/-- The SQL statements / bulk-load invocations the loader issues, abstracted. -/
inductive DbOp where
  | createToDelete (s : Scope)
  | deleteNotes
  | deleteProperties
  | deleteEvidence
  | deleteOrphanAnnots
  | deleteRefAssoc (refsKey : Nat)
  | deleteByObject (annotTypeKey objectKey : Nat)
  | nextvalSeq (seqName : String)
  | setvalSeq (seqName : String)
  | bcpIn (table : String)
deriving DecidableEq

/-- Whether an operation mutates the persistent store.  `nextvalSeq` advances a
database sequence, so it is a store mutation; creating the session-local
`toDelete` temp table is not. -/
def DbOp.isMutating : DbOp → Bool
  | .createToDelete _ => false
  | .deleteNotes => true
  | .deleteProperties => true
  | .deleteEvidence => true
  | .deleteOrphanAnnots => true
  | .deleteRefAssoc _ => true
  | .deleteByObject _ _ => true
  | .nextvalSeq _ => true
  | .setvalSeq _ => true
  | .bcpIn _ => true

/-! ### Load-type flags (`init`) -/

/-- The family of load-type booleans set by `init` from `sys.argv[1]`. -/
structure LoadFlags where
  isMCV : Bool
  isMP : Bool
  isGO : Bool
  isDiseaseMarker : Bool
  isDiseaseAllele : Bool
  isMPMarker : Bool
  isMPAllele : Bool
  isOMIMHPO : Bool
deriving DecidableEq

/-- `init`: derive the load-type flags from the load-type string (default
`"Standard"`, which sets no flag). -/
def initFlags (loadType : String) : LoadFlags where
  isMCV := loadType == "mcv"
  isMP := loadType == "mp"
  isGO := loadType == "go"
  isDiseaseMarker := loadType == "diseaseMarker"
  isDiseaseAllele := loadType == "diseaseAllele"
  isMPMarker := loadType == "mpMarker"
  isMPAllele := loadType == "mpAllele"
  isOMIMHPO := loadType == "omimhpo"

/-! ### Environment and state -/

/-- Read-only configuration and the cache snapshots primed at load start
(`loadReferenceDictionary`, `loadDictionaries`, the lazily primed evidence and
qualifier caches of `vocabloadlib`, the database behind the on-miss queries of
`verifyObject` and `accessionlib.get_LogicalDB_key`, and the initial sequence
values returned by `setPrimaryKeys`). -/
structure Env where
  loadType : String
  delByReference : String
  /-- `DELETEUSER` with the `'%'` wildcard already appended, as in the source. -/
  delByUser : String
  loadObsolete : String
  annotTypeKey : Nat
  termDict : List (String × Nat)
  referenceDict : List (String × Nat)
  /-- evidence-code cache of `vocabloadlib.verifyEvidence` (primed on first use
  from the database; modelled as primed up front). -/
  ecodeDict : List (String × Nat)
  /-- qualifier cache of `vocabloadlib.verifyQualifier`, keyed by term, where a
  null database term yields the key `None` (modelled as `Option String`). -/
  qualifierDict : List (Option String × Nat)
  /-- Modelled from the spec: `loadlib.verifyUser` is imported from an external
  library whose source is not part of this repository; per the spec the editor
  is looked up against a cache, a miss writes one line to the error sink and
  returns the unresolved sentinel 0. -/
  userDict : List (String × Nat)
  pTermDict : List (String × Nat)
  /-- `accessionlib.get_LogicalDB_key` (external library): logical-db name to key. -/
  logicalDBstore : String → Option Nat
  /-- database lookup behind `verifyObject` on a cache miss, by logical db and id. -/
  objectStore : Nat → String → Option Nat
  /-- `loadObjectDict`: the full accession dump for a logical db. -/
  objectPreload : Nat → List (String × Nat)
  annotDict0 : List (String × Nat)
  evidenceDict0 : List String
  annotKey0 : Nat
  evidenceKey0 : Nat
  noteKey0 : Nat
  propertyKey0 : Nat
  loaddate : String

/-- The mutable globals of the loader plus the contents of its output files. -/
structure LoadState where
  logicalDBKey : Nat
  objectDictLoaded : Bool
  objectDict : List (String × Nat)
  annotDict : List (String × Nat)
  evidenceDict : List String
  annotKey : Nat
  evidencePrimaryKey : Nat
  noteKey : Nat
  propertyKey : Nat
  annotRows : List AnnotRow
  evidenceRows : List EvidenceRow
  noteRows : List NoteRow
  propertyRows : List PropRow
  errorLog : List String
  stderrLog : List String
  dbOps : List (DbOp × Bool)
  skipBCP : Bool
deriving DecidableEq

/-- State after `init`, `loadReferenceDictionary`, `setPrimaryKeys` and
`loadDictionaries`: caches primed from the env, counters seeded from the
sequences, all sinks empty, `logicalDBKey = 1` (MGI), `skipBCP = 1`. -/
def initState (env : Env) : LoadState where
  logicalDBKey := 1
  objectDictLoaded := false
  objectDict := []
  annotDict := env.annotDict0
  evidenceDict := env.evidenceDict0
  annotKey := env.annotKey0
  evidencePrimaryKey := env.evidenceKey0
  noteKey := env.noteKey0
  propertyKey := env.propertyKey0
  annotRows := []
  evidenceRows := []
  noteRows := []
  propertyRows := []
  errorLog := []
  stderrLog := []
  dbOps := []
  skipBCP := true

/-! ### Field validators -/

/-- `verifyTerm`: term accession lookup; a miss writes one error line whose
wording depends on the obsolete-term configuration and returns 0. -/
def verifyTerm (env : Env) (st : LoadState) (termID : String) (lineNum : Nat)
    (line : String) : Nat × LoadState :=
  match alookup env.termDict termID with
  | some k => (k, st)
  | none =>
    if env.loadObsolete = "0" then
      (0, { st with errorLog := st.errorLog ++
        ["Invalid or Obsolete Term (" ++ natStr lineNum ++ "): " ++ termID ++ "\n" ++ line ++ "\n"] })
    else
      (0, { st with errorLog := st.errorLog ++
        ["Invalid Term (" ++ natStr lineNum ++ "): " ++ termID ++ "\n" ++ line ++ "\n"] })

/-- `verifyReference`: J-number lookup; a miss writes one error line and
returns 0 (never `None`). -/
def verifyReference (env : Env) (st : LoadState) (referenceID : String) (lineNum : Nat)
    (line : String) : Nat × LoadState :=
  match alookup env.referenceDict referenceID with
  | some k => (k, st)
  | none =>
    (0, { st with errorLog := st.errorLog ++
      ["Invalid Reference (" ++ natStr lineNum ++ "): " ++ referenceID ++ "\n" ++ line ++ "\n"] })

/-- `verifyObject`: object id lookup in the (growing) object cache, falling
back to a database query scoped to the logical db and the annotation type; a
hit is cached, a miss writes one error line and returns 0. -/
def verifyObject (env : Env) (st : LoadState) (objectID : String) (logicalDBKey : Nat)
    (lineNum : Nat) (line : String) : Nat × LoadState :=
  match alookup st.objectDict objectID with
  | some k => (k, st)
  | none =>
    match env.objectStore logicalDBKey objectID with
    | some k => (k, { st with objectDict := (objectID, k) :: st.objectDict })
    | none =>
      (0, { st with errorLog := st.errorLog ++
        ["Invalid Object (" ++ natStr lineNum ++ "): " ++ objectID ++ "\n" ++ line ++ "\n"] })

/-- `vocabloadlib.verifyEvidence`: evidence-code abbreviation lookup; a miss
writes one error line (without the input line text) and returns 0. -/
def verifyEvidence (env : Env) (st : LoadState) (ecode : String) (lineNum : Nat) :
    Nat × LoadState :=
  match alookup env.ecodeDict ecode with
  | some k => (k, st)
  | none =>
    (0, { st with errorLog := st.errorLog ++
      ["Invalid Evidence Code (" ++ natStr lineNum ++ "): " ++ ecode ++ "\n"] })

/-- How Python's `'%s'` renders the (possibly `None`) qualifier. -/
def qualText : Option String → String
  | none => "None"
  | some s => s

/-- `vocabloadlib.verifyQualifier` (by term, as called here): the empty
qualifier is turned into `None` before lookup; a miss writes one error line
and returns 0. -/
def verifyQualifier (env : Env) (st : LoadState) (qualifier : String) (lineNum : Nat) :
    Nat × LoadState :=
  let q : Option String := if qualifier.length = 0 then none else some qualifier
  match alookup env.qualifierDict q with
  | some k => (k, st)
  | none =>
    (0, { st with errorLog := st.errorLog ++
      ["Invalid Qualifier (" ++ natStr lineNum ++ "): " ++ qualText q ++ "\n"] })

/-- Modelled from the spec: `loadlib.verifyUser` comes from an external
library not present in this repository.  Per the spec's validator contract the
editor identity is looked up against a cache; a miss writes one line to the
error sink naming the line number and the offending value and returns the
unresolved sentinel 0. -/
def verifyUser (env : Env) (st : LoadState) (editor : String) (lineNum : Nat) :
    Nat × LoadState :=
  match alookup env.userDict editor with
  | some k => (k, st)
  | none =>
    (0, { st with errorLog := st.errorLog ++
      ["Invalid User (" ++ natStr lineNum ++ "): " ++ editor ++ "\n"] })

/-! ### Observations of the validators

For each validator, the error lines it appends and the key it returns, as
functions of its inputs; used to state and prove the validator lemmas. -/

/-- Error lines appended by `verifyTerm`. -/
def termErrs (env : Env) (termID : String) (lineNum : Nat) (line : String) : List String :=
  match alookup env.termDict termID with
  | some _ => []
  | none =>
    if env.loadObsolete = "0" then
      ["Invalid or Obsolete Term (" ++ natStr lineNum ++ "): " ++ termID ++ "\n" ++ line ++ "\n"]
    else
      ["Invalid Term (" ++ natStr lineNum ++ "): " ++ termID ++ "\n" ++ line ++ "\n"]

/-- Error lines appended by `verifyReference`. -/
def refErrs (env : Env) (referenceID : String) (lineNum : Nat) (line : String) : List String :=
  match alookup env.referenceDict referenceID with
  | some _ => []
  | none => ["Invalid Reference (" ++ natStr lineNum ++ "): " ++ referenceID ++ "\n" ++ line ++ "\n"]

/-- The object key `verifyObject` resolves (cache first, then the database). -/
def objResolve (env : Env) (dict : List (String × Nat)) (logicalDBKey : Nat)
    (objectID : String) : Option Nat :=
  match alookup dict objectID with
  | some k => some k
  | none => env.objectStore logicalDBKey objectID

/-- The object cache after a `verifyObject` call. -/
def objDictAfter (env : Env) (dict : List (String × Nat)) (logicalDBKey : Nat)
    (objectID : String) : List (String × Nat) :=
  match alookup dict objectID with
  | some _ => dict
  | none =>
    match env.objectStore logicalDBKey objectID with
    | some k => (objectID, k) :: dict
    | none => dict

/-- Error lines appended by `verifyObject`. -/
def objErrs (env : Env) (dict : List (String × Nat)) (logicalDBKey : Nat)
    (objectID : String) (lineNum : Nat) (line : String) : List String :=
  match objResolve env dict logicalDBKey objectID with
  | some _ => []
  | none => ["Invalid Object (" ++ natStr lineNum ++ "): " ++ objectID ++ "\n" ++ line ++ "\n"]

/-- Error lines appended by `verifyEvidence`. -/
def ecodeErrs (env : Env) (ecode : String) (lineNum : Nat) : List String :=
  match alookup env.ecodeDict ecode with
  | some _ => []
  | none => ["Invalid Evidence Code (" ++ natStr lineNum ++ "): " ++ ecode ++ "\n"]

/-- The `Option`-valued qualifier looked up by `verifyQualifier`. -/
def qualOpt (qualifier : String) : Option String :=
  if qualifier.length = 0 then none else some qualifier

/-- Error lines appended by `verifyQualifier`. -/
def qualErrs (env : Env) (qualifier : String) (lineNum : Nat) : List String :=
  match alookup env.qualifierDict (qualOpt qualifier) with
  | some _ => []
  | none => ["Invalid Qualifier (" ++ natStr lineNum ++ "): " ++ qualText (qualOpt qualifier) ++ "\n"]

/-- Error lines appended by `verifyUser`. -/
def userErrs (env : Env) (editor : String) (lineNum : Nat) : List String :=
  match alookup env.userDict editor with
  | some _ => []
  | none => ["Invalid User (" ++ natStr lineNum ++ "): " ++ editor ++ "\n"]

/-! ### Annotation and evidence records -/

/-- The composite annotation natural key
`'%s:%s:%s:%s' % (annotTypeKey, objectKey, termKey, qualifierKey)`. -/
def mkAKey (annotTypeKey objectKey termKey qualifierKey : Nat) : String :=
  natStr annotTypeKey ++ ":" ++ natStr objectKey ++ ":" ++ natStr termKey ++ ":"
    ++ natStr qualifierKey

/-- `createAnnotationRecord`: reuse the cached annotation key for the natural
key if present, otherwise allocate the next surrogate key, cache it and write
one `VOC_Annot` row. -/
def createAnnotationRecord (env : Env) (st : LoadState)
    (objectKey termKey qualifierKey : Nat) (entryDate : String) : Nat × LoadState :=
  let aKey := mkAKey env.annotTypeKey objectKey termKey qualifierKey
  match alookup st.annotDict aKey with
  | some useAnnotKey => (useAnnotKey, st)
  | none =>
    (st.annotKey,
      { st with
          annotDict := (aKey, st.annotKey) :: st.annotDict
          annotKey := st.annotKey + 1
          annotRows := st.annotRows ++
            [⟨st.annotKey, env.annotTypeKey, objectKey, termKey, qualifierKey, entryDate⟩] })

/-- The composite evidence dedup key of `createEvidenceRecord`, whose shape
depends on the load-type flags. -/
def mkEKey (fl : LoadFlags) (newAnnotKey evidenceKey referenceKey : Nat)
    (properties notes inferredFrom : String) : String :=
  if fl.isMP || fl.isOMIMHPO then
    natStr newAnnotKey ++ ":" ++ natStr evidenceKey ++ ":" ++ natStr referenceKey
      ++ ":" ++ properties
  else if fl.isMPMarker || fl.isMPAllele then
    natStr newAnnotKey ++ ":" ++ natStr evidenceKey ++ ":" ++ natStr referenceKey
      ++ ":" ++ properties ++ ":" ++ notes
  else if fl.isGO || fl.isDiseaseMarker || fl.isDiseaseAllele then
    natStr newAnnotKey ++ ":" ++ natStr evidenceKey ++ ":" ++ natStr referenceKey
      ++ ":" ++ properties ++ ":" ++ inferredFrom
  else
    natStr newAnnotKey ++ ":" ++ natStr evidenceKey ++ ":" ++ natStr referenceKey

/-- The error line written for a property term missing from `pTermDict`. -/
def invalidPropMsg (lineNum : Nat) (pTerm line : String) : String :=
  "Invalid Property (" ++ natStr lineNum ++ "):  " ++ pTerm ++ "\n" ++ line ++ "\n"

/-- Inner loop of the property-stanza processing of `createEvidenceRecord`:
one stanza's `&==&`-separated pairs.  Each pair must split on `&=&` into
exactly a term and a value (`pTerm, pValue = str.split(p, '&=&')`); any other
shape raises an unhandled `ValueError`, modelled by the final `Bool` (crash).
A resolvable term emits one property row and advances `seqnum` and the
property key; an unresolvable term emits one error line only. -/
def processPairs (env : Env) (evKey editorKey : Nat) (entryDate : String)
    (lineNum : Nat) (line : String) (stanza : Nat) :
    List String → Nat → Nat → List PropRow × List String × Nat × Bool
  | [], _, pk => ([], [], pk, false)
  | p :: rest, seqnum, pk =>
    match pySplit p ("&=&") with
    | [pTerm, pValue] =>
      match alookup env.pTermDict pTerm with
      | some tk =>
        let r := processPairs env evKey editorKey entryDate lineNum line stanza rest
          (seqnum + 1) (pk + 1)
        let row : PropRow := ⟨pk, evKey, tk, stanza, seqnum, pValue, editorKey, entryDate⟩
        (row :: r.1, r.2)
      | none =>
        let r := processPairs env evKey editorKey entryDate lineNum line stanza rest
          seqnum pk
        (r.1, invalidPropMsg lineNum pTerm line :: r.2.1, r.2.2)
    | _ => ([], [], pk, true)

/-- Outer loop of the property processing: the `&===&`-separated stanzas, with
1-based stanza numbering; a crash in a stanza aborts the remainder. -/
def processStanzas (env : Env) (evKey editorKey : Nat) (entryDate : String)
    (lineNum : Nat) (line : String) :
    List String → Nat → Nat → List PropRow × List String × Nat × Bool
  | [], _, pk => ([], [], pk, false)
  | s :: rest, stanza, pk =>
    let r := processPairs env evKey editorKey entryDate lineNum line stanza
      (pySplit s ("&==&")) 1 pk
    if r.2.2.2 then r
    else
      let r2 := processStanzas env evKey editorKey entryDate lineNum line rest
        (stanza + 1) r.2.2.1
      (r.1 ++ r2.1, r.2.1 ++ r2.2.1, r2.2.2)

/-- The duplicate-evidence error line. -/
def dupEvidenceMsg (lineNum : Nat) (line : String) : String :=
  "Duplicate evidence (" ++ natStr lineNum ++ "): \n" ++ line ++ "\n"

/-- The outcome of the whole property-processing block of
`createEvidenceRecord` (guarded by `len(properties) > 0`): the property rows,
the error lines, the next property key, and the crash flag. -/
def propResult (env : Env) (evKey editorKey : Nat) (entryDate : String) (lineNum : Nat)
    (line properties : String) (pk : Nat) : List PropRow × List String × Nat × Bool :=
  if properties.length > 0 then
    processStanzas env evKey editorKey entryDate lineNum line
      (pySplit properties ("&===&")) 1 pk
  else ([], [], pk, false)

/-- `createEvidenceRecord`: build the load-type-specific dedup key; if it is
already registered, write one duplicate error line and create nothing.
Otherwise register the key, write the `VOC_Evidence` row, an `MGI_Note` row
when the notes are non-empty, and the property rows; the returned `Bool`
signals the unhandled exception raised by a malformed property pair (in which
case the trailing `evidencePrimaryKey` increment is never reached). -/
def createEvidenceRecord (env : Env) (fl : LoadFlags) (st : LoadState)
    (newAnnotKey evidenceKey referenceKey : Nat) (inferredFrom : String)
    (editorKey : Nat) (notes properties entryDate line : String) (lineNum : Nat) :
    LoadState × Bool :=
  let eKey := mkEKey fl newAnnotKey evidenceKey referenceKey properties notes inferredFrom
  if elemS eKey st.evidenceDict then
    ({ st with errorLog := st.errorLog ++ [dupEvidenceMsg lineNum line] }, false)
  else
    let st1 := { st with
      evidenceDict := eKey :: st.evidenceDict
      evidenceRows := st.evidenceRows ++
        [(⟨st.evidencePrimaryKey, newAnnotKey, evidenceKey, referenceKey, inferredFrom,
          editorKey, entryDate⟩ : EvidenceRow)] }
    let st2 :=
      if notes.length > 0 then
        { st1 with
            noteRows := st1.noteRows ++
              [(⟨st1.noteKey, st1.evidencePrimaryKey, 25, 1008, notes, editorKey,
                entryDate⟩ : NoteRow)]
            noteKey := st1.noteKey + 1 }
      else st1
    let r := propResult env st2.evidencePrimaryKey editorKey entryDate lineNum line
      properties st2.propertyKey
    let st3 := { st2 with
      propertyRows := st2.propertyRows ++ r.1
      errorLog := st2.errorLog ++ r.2.1
      propertyKey := r.2.2.1 }
    if r.2.2.2 then (st3, true)
    else ({ st3 with evidencePrimaryKey := st3.evidencePrimaryKey + 1 }, false)

/-! ### Line parsing and the per-line pipeline (`processFile`) -/

/-- What one iteration of the processing loop does to control flow. -/
inductive StepRes where
  | cont
  | exited (status : Nat)
  | crashed
deriving DecidableEq

/-- How a whole run ends. -/
inductive Outcome where
  | finished
  | exited (status : Nat)
  | crashed
deriving DecidableEq

/-- The fields extracted from one input line. -/
structure ParsedLine where
  termID : String
  objectID : String
  jnum : String
  evidence : String
  inferredFrom : String
  qualifier : String
  editor : String
  entryDate : String
  notes : String
  properties : String
deriving DecidableEq

/-- The message `exit(1, ...)` prints for a malformed line. -/
def invalidLineMsg (lineNum : Nat) (line : String) : String :=
  "Invalid Line (" ++ natStr lineNum ++ "): \n" ++ line ++ "\n"

/-- Specification-side description (§4.6) of the property pairs that yield a
Property row: for each `&=&`-separated (term, value) pair, the resolved
(term key, raw value) when the term is in the property-term dictionary;
unresolvable or malformed pairs yield nothing. -/
def specGoodPairs (env : Env) (ps : List String) : List (Nat × String) :=
  ps.filterMap (fun p =>
    match pySplit p ("&=&") with
    | [t, v] => (alookup env.pTermDict t).map (fun k => (k, v))
    | _ => none)

/-- Specification-side description (§4.6) of the invalid-property error lines:
one per pair whose term does not resolve. -/
def specInvalidPairErrs (env : Env) (ps : List String) (lineNum : Nat) (line : String) :
    List String :=
  ps.filterMap (fun p =>
    match pySplit p ("&=&") with
    | [t, _] =>
      match alookup env.pTermDict t with
      | some _ => none
      | none => some (invalidPropMsg lineNum t line)
    | _ => none)

/-- Specification-side description (§4.6) of the (term key, value) projection
of all Property rows of a property blob, stanza by stanza. -/
def specGoodStanzas (env : Env) (properties : String) : List (Nat × String) :=
  (pySplit properties ("&===&")).flatMap
    (fun s => specGoodPairs env (pySplit s ("&==&")))

/-- Specification-side description (§4.6) of all invalid-property error lines
of a property blob, stanza by stanza. -/
def specInvalidStanzaErrs (env : Env) (properties : String) (lineNum : Nat)
    (line : String) : List String :=
  (pySplit properties ("&===&")).flatMap
    (fun s => specInvalidPairErrs env (pySplit s ("&==&")) lineNum line)

/-- The tokenization `str.split(line[:-1], '\t')` of one input line. -/
def lineTokens (line : String) : List String :=
  pySplit (pyDropLast line) ("\t")

/-- The `try` block of `processFile`: split the line and extract the fields.
Accessing `tokens[0] .. tokens[8]` raises (and the record is `none`) exactly
when fewer than 9 columns are present.  Column 10, when present and resolvable
via `accessionlib.get_LogicalDB_key`, overwrites the global `logicalDBKey` for
this and all later lines; column 11, when present, is the property blob. -/
def parseLine (env : Env) (st : LoadState) (line : String) :
    Option (ParsedLine × LoadState) :=
  let tokens := lineTokens line
  if tokens.length < 9 then none
  else
    let st1 :=
      if tokens.length > 9 then
        match env.logicalDBstore (pyStrip (tokens.getD 9 "")) with
        | some k => { st with logicalDBKey := k }
        | none => st
      else st
    let properties := if tokens.length > 10 then pyStrip (tokens.getD 10 "") else ""
    some ({ termID := tokens.getD 0 ""
            objectID := tokens.getD 1 ""
            jnum := tokens.getD 2 ""
            evidence := tokens.getD 3 ""
            inferredFrom := pyStrip (tokens.getD 4 "")
            qualifier := pyStrip (tokens.getD 5 "")
            editor := pyStrip (tokens.getD 6 "")
            entryDate := pyStrip (tokens.getD 7 "")
            notes := pyStrip (tokens.getD 8 "")
            properties := properties }, st1)

/-- The lazy `loadObjectDict` call: on the first line (only), prime the object
cache for the logical db in effect after that line's column 10. -/
def dictLoadPhase (env : Env) (st : LoadState) : LoadState :=
  if st.objectDictLoaded then st
  else { st with objectDict := env.objectPreload st.logicalDBKey, objectDictLoaded := true }

/-- The six field validators of `processFile`, run unconditionally in source
order (term, object, reference, evidence code, qualifier, editor). -/
def validatePhase (env : Env) (st : LoadState) (r : ParsedLine) (lineNum : Nat)
    (line : String) : (Nat × Nat × Nat × Nat × Nat × Nat) × LoadState :=
  let t := verifyTerm env st r.termID lineNum line
  let o := verifyObject env t.2 r.objectID t.2.logicalDBKey lineNum line
  let rf := verifyReference env o.2 r.jnum lineNum line
  let e := verifyEvidence env rf.2 r.evidence lineNum
  let q := verifyQualifier env e.2 r.qualifier lineNum
  let ed := verifyUser env q.2 r.editor lineNum
  ((t.1, o.1, rf.1, e.1, q.1, ed.1), ed.2)

/-- The six keys `validatePhase` resolves, as a function of the caches in
effect when it starts (0 marks an unresolved field). -/
def valKeys (env : Env) (dict : List (String × Nat)) (logicalDBKey : Nat)
    (r : ParsedLine) : Nat × Nat × Nat × Nat × Nat × Nat :=
  ((alookup env.termDict r.termID).getD 0,
   (objResolve env dict logicalDBKey r.objectID).getD 0,
   (alookup env.referenceDict r.jnum).getD 0,
   (alookup env.ecodeDict r.evidence).getD 0,
   (alookup env.qualifierDict (qualOpt r.qualifier)).getD 0,
   (alookup env.userDict r.editor).getD 0)

/-- All error lines `validatePhase` appends, in validator order. -/
def valErrs (env : Env) (dict : List (String × Nat)) (logicalDBKey : Nat)
    (r : ParsedLine) (lineNum : Nat) (line : String) : List String :=
  termErrs env r.termID lineNum line ++ objErrs env dict logicalDBKey r.objectID lineNum line
    ++ refErrs env r.jnum lineNum line ++ ecodeErrs env r.evidence lineNum
    ++ qualErrs env r.qualifier lineNum ++ userErrs env r.editor lineNum

/-- The accepted-record tail of one `processFile` iteration: resolve the
annotation key, create the evidence record (with notes and properties), then
clear `skipBCP`; a malformed property pair crashes the run instead. -/
def acceptLine (env : Env) (fl : LoadFlags) (st3 : LoadState)
    (objectKey termKey qualifierKey evidenceKey referenceKey editorKey : Nat)
    (r : ParsedLine) (entryDate line : String) (lineNum : Nat) : LoadState × StepRes :=
  let a := createAnnotationRecord env st3 objectKey termKey qualifierKey entryDate
  let e := createEvidenceRecord env fl a.2 a.1 evidenceKey referenceKey
    r.inferredFrom editorKey r.notes r.properties entryDate line lineNum
  if e.2 then (e.1, .crashed)
  else ({ e.1 with skipBCP := false }, .cont)

/-- One iteration of the `processFile` loop: parse (a short line exits the
whole process with status 1), prime the object cache on the first line, run
all validators, reject the record if any field is unresolved, otherwise
resolve the annotation and create the evidence record; a malformed property
pair crashes the run. -/
def processLine (env : Env) (fl : LoadFlags) (st : LoadState) (lineNum : Nat)
    (line : String) : LoadState × StepRes :=
  match parseLine env st line with
  | none =>
    ({ st with stderrLog := st.stderrLog ++ [invalidLineMsg lineNum line] }, .exited 1)
  | some (r, st1) =>
    let st2 := dictLoadPhase env st1
    let v := validatePhase env st2 r lineNum line
    let (termKey, objectKey, referenceKey, evidenceKey, qualifierKey, editorKey) := v.1
    let st3 := v.2
    let entryDate := if r.entryDate.length = 0 then env.loaddate else r.entryDate
    if termKey = 0 ∨ objectKey = 0 ∨ referenceKey = 0 ∨ evidenceKey = 0 ∨
        qualifierKey = 0 ∨ editorKey = 0 then
      (st3, .cont)
    else
      acceptLine env fl st3 objectKey termKey qualifierKey evidenceKey referenceKey
        editorKey r entryDate line lineNum

/-- The `processFile` loop over the remaining lines; `lineNum` is incremented
at the top of each iteration as in the source. -/
def processFileAux (env : Env) (fl : LoadFlags) :
    LoadState → Nat → List String → LoadState × Outcome
  | st, _, [] => (st, .finished)
  | st, lineNum, l :: rest =>
    match processLine env fl st (lineNum + 1) l with
    | (st1, .cont) => processFileAux env fl st1 (lineNum + 1) rest
    | (st1, .exited c) => (st1, .exited c)
    | (st1, .crashed) => (st1, .crashed)

/-- `processFile`: process every line of the input file. -/
def processFile (env : Env) (fl : LoadFlags) (st : LoadState) (lines : List String) :
    LoadState × Outcome :=
  processFileAux env fl st 0 lines

/-- The states of a run, observed before each processed line (and after the
last one); `runStates env fl st n lines` has the state before line `n + i + 1`
at position `i`. -/
def runStates (env : Env) (fl : LoadFlags) :
    LoadState → Nat → List String → List LoadState
  | st, _, [] => [st]
  | st, lineNum, l :: rest =>
    match processLine env fl st (lineNum + 1) l with
    | (st1, .cont) => st :: runStates env fl st1 (lineNum + 1) rest
    | (st1, _) => [st, st1]

/-- Observation of one loop iteration of `processFile`: when the line parses,
all six validators resolve, this returns the line's resolved
(object, term, qualifier) triple together with the annotation key the line
attaches its evidence to; otherwise `none`. -/
def lineResolved (env : Env) (st : LoadState) (lineNum : Nat) (line : String) :
    Option (Nat × Nat × Nat × Nat) :=
  match parseLine env st line with
  | none => none
  | some (r, st1) =>
    let st2 := dictLoadPhase env st1
    let v := validatePhase env st2 r lineNum line
    let (termKey, objectKey, referenceKey, evidenceKey, qualifierKey, editorKey) := v.1
    let entryDate := if r.entryDate.length = 0 then env.loaddate else r.entryDate
    if termKey = 0 ∨ objectKey = 0 ∨ referenceKey = 0 ∨ evidenceKey = 0 ∨
        qualifierKey = 0 ∨ editorKey = 0 then none
    else
      some (objectKey, termKey, qualifierKey,
        (createAnnotationRecord env v.2 objectKey termKey qualifierKey entryDate).1)

/-! ### The mcv variant (`processMcvFile`) -/

/-- One iteration of the `processMcvFile` loop.  Differences from
`processFile`: no lazy object-cache priming, column 10 is not stripped, a line
with only an object id (all of term, reference, evidence, qualifier, editor
empty) deletes that object's annotations and nothing else, and each annotated
object's annotations are deleted (once) before its new records are created,
removing the natural key from the annotation cache. -/
def processMcvLine (env : Env) (fl : LoadFlags) (st : LoadState) (mkrKeyList : List Nat)
    (lineNum : Nat) (line : String) : LoadState × List Nat × StepRes :=
  let tokens := lineTokens line
  if tokens.length < 9 then
    ({ st with stderrLog := st.stderrLog ++ [invalidLineMsg lineNum line] }, mkrKeyList,
      .exited 1)
  else
    let r : ParsedLine :=
      { termID := tokens.getD 0 ""
        objectID := tokens.getD 1 ""
        jnum := tokens.getD 2 ""
        evidence := tokens.getD 3 ""
        inferredFrom := pyStrip (tokens.getD 4 "")
        qualifier := pyStrip (tokens.getD 5 "")
        editor := pyStrip (tokens.getD 6 "")
        entryDate := pyStrip (tokens.getD 7 "")
        notes := pyStrip (tokens.getD 8 "")
        properties := if tokens.length > 10 then pyStrip (tokens.getD 10 "") else "" }
    let st1 :=
      if tokens.length > 9 then
        match env.logicalDBstore (tokens.getD 9 "") with
        | some k => { st with logicalDBKey := k }
        | none => st
      else st
    if r.termID = "" ∧ r.jnum = "" ∧ r.evidence = "" ∧ r.qualifier = "" ∧ r.editor = "" then
      let o := verifyObject env st1 r.objectID st1.logicalDBKey lineNum line
      if o.1 = 0 then (o.2, mkrKeyList, .cont)
      else
        ({ o.2 with dbOps := o.2.dbOps ++
          [(DbOp.deleteByObject env.annotTypeKey o.1, true)] }, mkrKeyList, .cont)
    else
      let v := validatePhase env st1 r lineNum line
      let (termKey, markerKey, referenceKey, evidenceKey, qualifierKey, editorKey) := v.1
      let st3 := v.2
      if termKey = 0 ∨ markerKey = 0 ∨ referenceKey = 0 ∨ evidenceKey = 0 ∨
          qualifierKey = 0 ∨ editorKey = 0 then
        (st3, mkrKeyList, .cont)
      else
        let entryDate := if r.entryDate.length = 0 then env.loaddate else r.entryDate
        let st4 :=
          if markerKey ∈ mkrKeyList then st3
          else { st3 with dbOps := st3.dbOps ++
            [(DbOp.deleteByObject env.annotTypeKey markerKey, true)] }
        let mkrKeyList2 := if markerKey ∈ mkrKeyList then mkrKeyList
          else mkrKeyList ++ [markerKey]
        let aKey := mkAKey env.annotTypeKey markerKey termKey qualifierKey
        let st5 :=
          if (alookup st4.annotDict aKey).isSome then
            { st4 with annotDict := aremove st4.annotDict aKey }
          else st4
        let a := createAnnotationRecord env st5 markerKey termKey qualifierKey entryDate
        let e := createEvidenceRecord env fl a.2 a.1 evidenceKey referenceKey
          r.inferredFrom editorKey r.notes r.properties entryDate line lineNum
        if e.2 then (e.1, mkrKeyList2, .crashed)
        else (e.1, mkrKeyList2, .cont)

/-- The `processMcvFile` loop over the remaining lines. -/
def processMcvAux (env : Env) (fl : LoadFlags) :
    LoadState → List Nat → Nat → List String → LoadState × Outcome
  | st, _, _, [] => (st, .finished)
  | st, mkrKeyList, lineNum, l :: rest =>
    match processMcvLine env fl st mkrKeyList (lineNum + 1) l with
    | (st1, ml, .cont) => processMcvAux env fl st1 ml (lineNum + 1) rest
    | (st1, _, .exited c) => (st1, .exited c)
    | (st1, _, .crashed) => (st1, .crashed)

/-- `processMcvFile`: sets `skipBCP = 0` up front, then processes each line. -/
def processMcvFile (env : Env) (fl : LoadFlags) (st : LoadState) (lines : List String) :
    LoadState × Outcome :=
  processMcvAux env fl { st with skipBCP := false } [] 0 lines

/-! ### Mode handling, sequences and bulk load -/

/-- `verifyMode`: validate the deletion reference when one is supplied (the
`is None` abort can never fire because `verifyReference` returns the integer
0 for an unknown reference); in `new`/`delete` mode build the `toDelete` scope
and issue the cascade of delete statements (the booleans record
`execute = not DEBUG`, and `DEBUG` is still 0 at this point); `append` does
nothing; `preview` sets the dry-run flag; anything else exits with status 1;
`delete` exits with status 0 after the cascade.  Returns the state, the
`DEBUG` flag and the control-flow result. -/
def verifyMode (mode : String) (env : Env) (fl : LoadFlags) (st : LoadState) :
    LoadState × Bool × StepRes :=
  let rk :=
    if env.delByReference ≠ "J:0" then verifyReference env st env.delByReference 0 ""
    else (0, st)
  if env.delByReference ≠ "J:0" ∧ pyIsNone rk.1 then
    ({ rk.2 with stderrLog := rk.2.stderrLog ++
      ["Invalid Reference: " ++ env.delByReference ++ "\n"] }, false, .exited 1)
  else if mode = "new" ∨ mode = "delete" then
    let scope :=
      if env.delByReference ≠ "J:0" then Scope.byReference rk.1
      else if env.delByUser ≠ "none%" then Scope.byUser env.delByUser
      else Scope.allOfType
    let ops := [(DbOp.createToDelete scope, true), (DbOp.deleteNotes, true),
      (DbOp.deleteProperties, true), (DbOp.deleteEvidence, true),
      (DbOp.deleteOrphanAnnots, true)]
    let ops := if fl.isMP then ops ++ [(DbOp.deleteRefAssoc rk.1, true)] else ops
    let st2 := { rk.2 with dbOps := rk.2.dbOps ++ ops }
    if mode = "delete" then (st2, false, .exited 0) else (st2, false, .cont)
  else if mode = "append" then (rk.2, false, .cont)
  else if mode = "preview" then (rk.2, true, .cont)
  else
    ({ rk.2 with stderrLog := rk.2.stderrLog ++
      ["Invalid Processing Mode:  " ++ mode ++ "\n"] }, false, .exited 1)

/-- `setPrimaryKeys`: fetch the four sequence values with `nextval`.  These
statements are executed unconditionally — there is no `execute = not DEBUG`
guard in `setPrimaryKeys` — so the store sequences advance in every mode,
preview included.  (The values themselves seed the counters in `initState`.) -/
def setPrimaryKeys (st : LoadState) : LoadState :=
  { st with dbOps := st.dbOps ++
    [(DbOp.nextvalSeq "voc_annot_seq", true), (DbOp.nextvalSeq "voc_evidence_seq", true),
     (DbOp.nextvalSeq "mgi_note_seq", true),
     (DbOp.nextvalSeq "voc_evidence_property_seq", true)] }

/-- `bcpFiles`: in preview mode (`DEBUG`) return before invoking anything; if
no data was produced (`skipBCP`) likewise; otherwise invoke the bulk loader
once per entity table and reset the four sequences to their high-water marks. -/
def bcpFiles (debug : Bool) (st : LoadState) : LoadState :=
  if debug then st
  else if st.skipBCP then st
  else { st with dbOps := st.dbOps ++
    [(DbOp.bcpIn "VOC_Annot", true), (DbOp.bcpIn "VOC_Evidence", true),
     (DbOp.bcpIn "MGI_Note", true), (DbOp.bcpIn "VOC_Evidence_Property", true),
     (DbOp.setvalSeq "voc_annot_seq", true), (DbOp.setvalSeq "voc_evidence_seq", true),
     (DbOp.setvalSeq "voc_evidence_property_seq", true),
     (DbOp.setvalSeq "mgi_note_seq", true)] }

/-- The main flow: `init` (load-type flags, initial state), `verifyMode`,
`setPrimaryKeys`, the per-line processing (mcv or standard), and `bcpFiles`
when the processing finishes normally.  The annotation type is assumed to
resolve (`verifyAnnotType` aborts otherwise); the caches are primed in
`initState`. -/
def runMain (mode : String) (env : Env) (lines : List String) : LoadState × Outcome :=
  let fl := initFlags env.loadType
  let st0 := initState env
  match verifyMode mode env fl st0 with
  | (st1, _, StepRes.exited c) => (st1, Outcome.exited c)
  | (st1, debug, _) =>
    let st2 := setPrimaryKeys st1
    let pr := if fl.isMCV then processMcvFile env fl st2 lines
      else processFile env fl st2 lines
    match pr.2 with
    | Outcome.finished => (bcpFiles debug pr.1, Outcome.finished)
    | o => (pr.1, o)

/-! ### Concrete fixtures used to instantiate the theorems -/

/-- A small concrete environment: one annotation type, a handful of valid
terms, objects, references, codes, qualifiers, editors and property terms. -/
def env0 : Env where
  loadType := "Standard"
  delByReference := "J:0"
  delByUser := "none%"
  loadObsolete := "1"
  annotTypeKey := 5
  termDict := [("T:1", 11), ("T:2", 12)]
  referenceDict := [("J:1", 21), ("J:2", 22)]
  ecodeDict := [("IDA", 31)]
  qualifierDict := [(some "q", 41), (none, 40)]
  userDict := [("ed", 51)]
  pTermDict := [("p1", 61)]
  logicalDBstore := fun _ => none
  objectStore := fun _ _ => none
  objectPreload := fun _ => [("O:1", 71), ("O:2", 72)]
  annotDict0 := []
  evidenceDict0 := []
  annotKey0 := 100
  evidenceKey0 := 200
  noteKey0 := 300
  propertyKey0 := 400
  loaddate := "01/01/2026"

/-- A fully valid 9-column input line. -/
def goodLine : String := "T:1\tO:1\tJ:1\tIDA\t\tq\ted\t\tnote\n"

/-- Same object/term/qualifier as `goodLine` but a different reference. -/
def goodLine2 : String := "T:1\tO:1\tJ:2\tIDA\t\tq\ted\t\tnote\n"

/-- A line with fewer than 9 tab-delimited columns. -/
def shortLine : String := "a\tb\n"

/-- An otherwise-valid 11-column line whose property blob has a pair with two
`&=&` occurrences. -/
def propCrashLine : String := "T:1\tO:1\tJ:1\tIDA\t\tq\ted\t\tnote\tMGI\ta&=&b&=&c\n"

/-- An otherwise-valid 11-column line with one resolvable property pair and
one sibling pair whose term is unknown. -/
def propMixLine : String := "T:1\tO:1\tJ:1\tIDA\t\tq\ted\t\tnote\tMGI\tp1&=&v1&==&bad&=&v2\n"

/-- A 9-column line whose term accession and editor are both unknown while the
remaining fields resolve. -/
def badValLine : String := "T:9\tO:1\tJ:1\tIDA\t\tq\tbad\t\tnote\n"

/-- An otherwise-valid 11-column line whose property blob has no `&=&` at all. -/
def propNoSepLine : String := "T:1\tO:1\tJ:1\tIDA\t\tq\ted\t\tnote\tMGI\tnoseparator\n"

/-- `env0` with a deletion reference that resolves to no known reference. -/
def envC6 : Env := { env0 with delByReference := "J:99999" }

/-- The parsed fields of `badValLine`. -/
def rC8 : ParsedLine :=
  ⟨"T:9", "O:1", "J:1", "IDA", "", "q", "bad", "", "note", ""⟩

/-- Decimal value of a digit list (most significant first); the left inverse
of `natDigits`, used to prove `natStr` injective. -/
def ofDigits (l : List Nat) : Nat :=
  l.foldl (fun a d => 10 * a + d) 0

/-- Run invariant for C4: values cached in the annotation dictionary are below
the annotation surrogate counter, every registered evidence dedup key starts
with the decimal rendering of an annotation key below the counter followed by
a colon, and every emitted Annotation row already has an emitted Evidence row
referencing it. -/
def InvB (_env : Env) (st : LoadState) : Prop :=
  (∀ p ∈ st.annotDict, p.2 < st.annotKey)
  ∧ (∀ k ∈ st.evidenceDict, ∃ a rest, a < st.annotKey
      ∧ k.data = (natStr a).data ++ ':' :: rest)
  ∧ (∀ r ∈ st.annotRows, ∃ e ∈ st.evidenceRows, e.annotKey = r.annotKey)

/-- Run invariant tying the annotation cache to the annotation sink: every
emitted row is registered in the cache under its natural key with its own
surrogate key, surrogate keys of emitted rows are below the counter and
determine the row, and no emitted row's natural key was in the pre-loaded
store snapshot (whose entries stay visible in the cache). -/
def InvA (env : Env) (st : LoadState) : Prop :=
  (∀ r ∈ st.annotRows,
    alookup st.annotDict (mkAKey env.annotTypeKey r.objectKey r.termKey r.qualifierKey)
      = some r.annotKey)
  ∧ (∀ r ∈ st.annotRows, r.annotKey < st.annotKey)
  ∧ (∀ r1 ∈ st.annotRows, ∀ r2 ∈ st.annotRows, r1.annotKey = r2.annotKey → r1 = r2)
  ∧ (∀ r ∈ st.annotRows,
      alookup env.annotDict0
        (mkAKey env.annotTypeKey r.objectKey r.termKey r.qualifierKey) = none)
  ∧ (∀ k, (alookup env.annotDict0 k).isSome → (alookup st.annotDict k).isSome)

/-! ## Theorems -/

/-- Claim C1: the evidence dedup key is exactly
(annotation key, evidence-code key, reference key) for the default load type
`Standard`; it is additionally extended with the encoded-properties string for
`mp` and `omimhpo`, with the encoded-properties string and the raw notes text
for `mpMarker` and `mpAllele`, and with the encoded-properties string and the
raw inferred-from text for `go`, `diseaseMarker` and `diseaseAllele`. -/
theorem C1_dedup_key_by_load_type (a e r : Nat) (props notes inf : String) :
    mkEKey (initFlags "Standard") a e r props notes inf
        = natStr a ++ ":" ++ natStr e ++ ":" ++ natStr r
    ∧ mkEKey (initFlags "mp") a e r props notes inf
        = natStr a ++ ":" ++ natStr e ++ ":" ++ natStr r ++ ":" ++ props
    ∧ mkEKey (initFlags "omimhpo") a e r props notes inf
        = natStr a ++ ":" ++ natStr e ++ ":" ++ natStr r ++ ":" ++ props
    ∧ mkEKey (initFlags "mpMarker") a e r props notes inf
        = natStr a ++ ":" ++ natStr e ++ ":" ++ natStr r ++ ":" ++ props ++ ":" ++ notes
    ∧ mkEKey (initFlags "mpAllele") a e r props notes inf
        = natStr a ++ ":" ++ natStr e ++ ":" ++ natStr r ++ ":" ++ props ++ ":" ++ notes
    ∧ mkEKey (initFlags "go") a e r props notes inf
        = natStr a ++ ":" ++ natStr e ++ ":" ++ natStr r ++ ":" ++ props ++ ":" ++ inf
    ∧ mkEKey (initFlags "diseaseMarker") a e r props notes inf
        = natStr a ++ ":" ++ natStr e ++ ":" ++ natStr r ++ ":" ++ props ++ ":" ++ inf
    ∧ mkEKey (initFlags "diseaseAllele") a e r props notes inf
        = natStr a ++ ":" ++ natStr e ++ ":" ++ natStr r ++ ":" ++ props ++ ":" ++ inf :=
  ⟨rfl, rfl, rfl, rfl, rfl, rfl, rfl, rfl⟩

/-- Claim C2: a line whose composite dedup key is already registered (from an
earlier accepted line or from the pre-loaded store snapshot) produces zero
Evidence rows, zero Note rows, zero Property rows, and exactly one
duplicate-log entry carrying the line number and the original line text. -/
theorem C2_duplicate_line_creates_nothing (env : Env) (fl : LoadFlags) (st : LoadState)
    (a e r ed ln : Nat) (inf notes props date line : String)
    (h : elemS (mkEKey fl a e r props notes inf) st.evidenceDict = true) :
    createEvidenceRecord env fl st a e r inf ed notes props date line ln
      = ({ st with errorLog := st.errorLog ++ [dupEvidenceMsg ln line] }, false) := by
  simp [createEvidenceRecord, h]

/-- Witness for C2: a concrete state whose evidence cache already holds the
key `100:31:21` rejects a line resolving to the same key. -/
theorem C2_witness :
    elemS (mkEKey (initFlags "Standard") 100 31 21 "" "note" "")
        (initState { env0 with evidenceDict0 := ["100:31:21"] }).evidenceDict = true
    ∧ createEvidenceRecord env0 (initFlags "Standard")
        (initState { env0 with evidenceDict0 := ["100:31:21"] }) 100 31 21 "" 51 "note" ""
        "01/01/2026" goodLine 2
      = ({ initState { env0 with evidenceDict0 := ["100:31:21"] } with
          errorLog := (initState { env0 with evidenceDict0 := ["100:31:21"] }).errorLog
            ++ [dupEvidenceMsg 2 goodLine] }, false) :=
  ⟨by decide, C2_duplicate_line_creates_nothing env0 (initFlags "Standard")
    (initState { env0 with evidenceDict0 := ["100:31:21"] }) 100 31 21 51 2 "" "note" ""
    "01/01/2026" goodLine (by decide)⟩

/-! ### Validator characterization lemmas -/

@[simp] theorem alookup_nil {α : Type} [DecidableEq α] (k : α) :
    alookup ([] : List (α × Nat)) k = none := rfl

theorem alookup_cons {α : Type} [DecidableEq α] (k' : α) (v : Nat) (t : List (α × Nat))
    (k : α) : alookup ((k', v) :: t) k = if k' = k then some v else alookup t k := rfl

theorem verifyTerm_eq (env : Env) (st : LoadState) (termID : String) (lineNum : Nat)
    (line : String) :
    verifyTerm env st termID lineNum line
      = ((alookup env.termDict termID).getD 0,
         { st with errorLog := st.errorLog ++ termErrs env termID lineNum line }) := by
  cases h : alookup env.termDict termID with
  | some k => simp [verifyTerm, termErrs, h]
  | none =>
    by_cases ho : env.loadObsolete = "0" <;> simp [verifyTerm, termErrs, h, ho]

theorem verifyReference_eq (env : Env) (st : LoadState) (referenceID : String)
    (lineNum : Nat) (line : String) :
    verifyReference env st referenceID lineNum line
      = ((alookup env.referenceDict referenceID).getD 0,
         { st with errorLog := st.errorLog ++ refErrs env referenceID lineNum line }) := by
  cases h : alookup env.referenceDict referenceID <;> simp [verifyReference, refErrs, h]

theorem verifyObject_eq (env : Env) (st : LoadState) (objectID : String) (ldb : Nat)
    (lineNum : Nat) (line : String) :
    verifyObject env st objectID ldb lineNum line
      = ((objResolve env st.objectDict ldb objectID).getD 0,
         { st with objectDict := objDictAfter env st.objectDict ldb objectID,
                   errorLog := st.errorLog ++ objErrs env st.objectDict ldb objectID lineNum line }) := by
  cases h : alookup st.objectDict objectID with
  | some k => simp [verifyObject, objResolve, objDictAfter, objErrs, h]
  | none =>
    cases h2 : env.objectStore ldb objectID <;>
      simp [verifyObject, objResolve, objDictAfter, objErrs, h, h2]

theorem verifyEvidence_eq (env : Env) (st : LoadState) (ecode : String) (lineNum : Nat) :
    verifyEvidence env st ecode lineNum
      = ((alookup env.ecodeDict ecode).getD 0,
         { st with errorLog := st.errorLog ++ ecodeErrs env ecode lineNum }) := by
  cases h : alookup env.ecodeDict ecode <;> simp [verifyEvidence, ecodeErrs, h]

theorem verifyQualifier_eq (env : Env) (st : LoadState) (qualifier : String) (lineNum : Nat) :
    verifyQualifier env st qualifier lineNum
      = ((alookup env.qualifierDict (qualOpt qualifier)).getD 0,
         { st with errorLog := st.errorLog ++ qualErrs env qualifier lineNum }) := by
  cases h : alookup env.qualifierDict (if qualifier.length = 0 then none else some qualifier) <;>
    simp [verifyQualifier, qualErrs, qualOpt, h]

theorem verifyUser_eq (env : Env) (st : LoadState) (editor : String) (lineNum : Nat) :
    verifyUser env st editor lineNum
      = ((alookup env.userDict editor).getD 0,
         { st with errorLog := st.errorLog ++ userErrs env editor lineNum }) := by
  cases h : alookup env.userDict editor <;> simp [verifyUser, userErrs, h]

theorem validatePhase_eq (env : Env) (st : LoadState) (r : ParsedLine) (lineNum : Nat)
    (line : String) :
    validatePhase env st r lineNum line
      = (valKeys env st.objectDict st.logicalDBKey r,
         { st with objectDict := objDictAfter env st.objectDict st.logicalDBKey r.objectID,
                   errorLog := st.errorLog
                     ++ valErrs env st.objectDict st.logicalDBKey r lineNum line }) := by
  simp only [validatePhase, verifyTerm_eq, verifyObject_eq, verifyReference_eq,
    verifyEvidence_eq, verifyQualifier_eq, verifyUser_eq, valKeys, valErrs]
  simp [List.append_assoc]

/-! ### Frame lemmas -/

theorem alookup_mem {α : Type} [DecidableEq α] {m : List (α × Nat)} {k : α} {v : Nat}
    (h : alookup m k = some v) : (k, v) ∈ m := by
  induction m with
  | nil => simp [alookup] at h
  | cons p t ih =>
    obtain ⟨a, b⟩ := p
    rw [alookup] at h
    by_cases hk : a = k
    · rw [if_pos hk] at h
      injection h with hv
      subst hk
      subst hv
      exact List.mem_cons_self _ _
    · rw [if_neg hk] at h
      exact List.mem_cons_of_mem _ (ih h)

theorem parseLine_shape {env : Env} {st : LoadState} {line : String} {r : ParsedLine}
    {st1 : LoadState} (hp : parseLine env st line = some (r, st1)) :
    ∃ ldb, st1 = { st with logicalDBKey := ldb } := by
  unfold parseLine at hp
  by_cases h9 : (lineTokens line).length < 9
  · simp [h9] at hp
  · simp only [h9, if_false] at hp
    by_cases h10 : (lineTokens line).length > 9
    · cases hs : env.logicalDBstore (pyStrip ((lineTokens line).getD 9 "")) with
      | some k =>
        simp only [h10, if_true, hs, Option.some.injEq, Prod.mk.injEq] at hp
        exact ⟨k, hp.2.symm⟩
      | none =>
        simp only [h10, if_true, hs, Option.some.injEq, Prod.mk.injEq] at hp
        exact ⟨st.logicalDBKey, hp.2.symm⟩
    · simp only [h10, if_false, Option.some.injEq, Prod.mk.injEq] at hp
      exact ⟨st.logicalDBKey, hp.2.symm⟩

@[simp] theorem dictLoadPhase_annotDict (env : Env) (st : LoadState) :
    (dictLoadPhase env st).annotDict = st.annotDict := by
  unfold dictLoadPhase; split <;> rfl

@[simp] theorem dictLoadPhase_evidenceDict (env : Env) (st : LoadState) :
    (dictLoadPhase env st).evidenceDict = st.evidenceDict := by
  unfold dictLoadPhase; split <;> rfl

@[simp] theorem dictLoadPhase_annotKey (env : Env) (st : LoadState) :
    (dictLoadPhase env st).annotKey = st.annotKey := by
  unfold dictLoadPhase; split <;> rfl

@[simp] theorem dictLoadPhase_evidencePrimaryKey (env : Env) (st : LoadState) :
    (dictLoadPhase env st).evidencePrimaryKey = st.evidencePrimaryKey := by
  unfold dictLoadPhase; split <;> rfl

@[simp] theorem dictLoadPhase_annotRows (env : Env) (st : LoadState) :
    (dictLoadPhase env st).annotRows = st.annotRows := by
  unfold dictLoadPhase; split <;> rfl

@[simp] theorem dictLoadPhase_evidenceRows (env : Env) (st : LoadState) :
    (dictLoadPhase env st).evidenceRows = st.evidenceRows := by
  unfold dictLoadPhase; split <;> rfl

@[simp] theorem dictLoadPhase_noteRows (env : Env) (st : LoadState) :
    (dictLoadPhase env st).noteRows = st.noteRows := by
  unfold dictLoadPhase; split <;> rfl

@[simp] theorem dictLoadPhase_propertyRows (env : Env) (st : LoadState) :
    (dictLoadPhase env st).propertyRows = st.propertyRows := by
  unfold dictLoadPhase; split <;> rfl

@[simp] theorem dictLoadPhase_errorLog (env : Env) (st : LoadState) :
    (dictLoadPhase env st).errorLog = st.errorLog := by
  unfold dictLoadPhase; split <;> rfl

@[simp] theorem dictLoadPhase_logicalDBKey (env : Env) (st : LoadState) :
    (dictLoadPhase env st).logicalDBKey = st.logicalDBKey := by
  unfold dictLoadPhase; split <;> rfl

@[simp] theorem dictLoadPhase_dbOps (env : Env) (st : LoadState) :
    (dictLoadPhase env st).dbOps = st.dbOps := by
  unfold dictLoadPhase; split <;> rfl

@[simp] theorem dictLoadPhase_stderrLog (env : Env) (st : LoadState) :
    (dictLoadPhase env st).stderrLog = st.stderrLog := by
  unfold dictLoadPhase; split <;> rfl

@[simp] theorem dictLoadPhase_skipBCP (env : Env) (st : LoadState) :
    (dictLoadPhase env st).skipBCP = st.skipBCP := by
  unfold dictLoadPhase; split <;> rfl

@[simp] theorem dictLoadPhase_noteKey (env : Env) (st : LoadState) :
    (dictLoadPhase env st).noteKey = st.noteKey := by
  unfold dictLoadPhase; split <;> rfl

@[simp] theorem dictLoadPhase_propertyKey (env : Env) (st : LoadState) :
    (dictLoadPhase env st).propertyKey = st.propertyKey := by
  unfold dictLoadPhase; split <;> rfl

/-- Claim C8 supporting step: the rejected-record branch of `processLine`.
When the line parses and some validated key is 0, the result is the
post-validation state and the loop continues. -/
theorem processLine_rejected (env : Env) (fl : LoadFlags) (st : LoadState)
    (lineNum : Nat) (line : String) (r : ParsedLine) (st1 : LoadState)
    (hp : parseLine env st line = some (r, st1))
    (hfail :
      (valKeys env (dictLoadPhase env st1).objectDict (dictLoadPhase env st1).logicalDBKey r).1 = 0
      ∨ (valKeys env (dictLoadPhase env st1).objectDict (dictLoadPhase env st1).logicalDBKey r).2.1 = 0
      ∨ (valKeys env (dictLoadPhase env st1).objectDict (dictLoadPhase env st1).logicalDBKey r).2.2.1 = 0
      ∨ (valKeys env (dictLoadPhase env st1).objectDict (dictLoadPhase env st1).logicalDBKey r).2.2.2.1 = 0
      ∨ (valKeys env (dictLoadPhase env st1).objectDict (dictLoadPhase env st1).logicalDBKey r).2.2.2.2.1 = 0
      ∨ (valKeys env (dictLoadPhase env st1).objectDict (dictLoadPhase env st1).logicalDBKey r).2.2.2.2.2 = 0) :
    processLine env fl st lineNum line
      = ({ dictLoadPhase env st1 with
            objectDict := objDictAfter env (dictLoadPhase env st1).objectDict
              (dictLoadPhase env st1).logicalDBKey r.objectID,
            errorLog := (dictLoadPhase env st1).errorLog
              ++ valErrs env (dictLoadPhase env st1).objectDict
                  (dictLoadPhase env st1).logicalDBKey r lineNum line }, StepRes.cont) := by
  rw [processLine, hp]
  simp only [validatePhase_eq]
  split
  · rfl
  · rename_i hcond
    exact absurd hfail hcond

/-- Claim C8: for a line with at least 9 columns, all six field validators
(term, object, reference, evidence code, qualifier, editor) are executed even
when an earlier one is unresolved — the error sink receives exactly one entry
per failing field, in validator order — and when any field is unresolved the
line creates no Annotation, Evidence, Note or Property row.  (The caches are
assumed not to map any identifier to the unresolved sentinel 0.) -/
theorem C8_validators_all_run (env : Env) (fl : LoadFlags) (st : LoadState)
    (lineNum : Nat) (line : String) (r : ParsedLine) (st1 : LoadState)
    (tk ok rk ek qk edk : Nat)
    (hp : parseLine env st line = some (r, st1))
    (hks : valKeys env (dictLoadPhase env st1).objectDict
      (dictLoadPhase env st1).logicalDBKey r = (tk, ok, rk, ek, qk, edk))
    (htd : ∀ p ∈ env.termDict, p.2 ≠ 0)
    (hod : ∀ p ∈ (dictLoadPhase env st1).objectDict, p.2 ≠ 0)
    (hos : ∀ l o k, env.objectStore l o = some k → k ≠ 0)
    (hrd : ∀ p ∈ env.referenceDict, p.2 ≠ 0)
    (hed : ∀ p ∈ env.ecodeDict, p.2 ≠ 0)
    (hqd : ∀ p ∈ env.qualifierDict, p.2 ≠ 0)
    (hud : ∀ p ∈ env.userDict, p.2 ≠ 0)
    (hfail : tk = 0 ∨ ok = 0 ∨ rk = 0 ∨ ek = 0 ∨ qk = 0 ∨ edk = 0) :
    (processLine env fl st lineNum line).1.errorLog
      = st.errorLog
        ++ termErrs env r.termID lineNum line
        ++ objErrs env (dictLoadPhase env st1).objectDict
            (dictLoadPhase env st1).logicalDBKey r.objectID lineNum line
        ++ refErrs env r.jnum lineNum line
        ++ ecodeErrs env r.evidence lineNum
        ++ qualErrs env r.qualifier lineNum
        ++ userErrs env r.editor lineNum
    ∧ (termErrs env r.termID lineNum line).length = (if tk = 0 then 1 else 0)
    ∧ (objErrs env (dictLoadPhase env st1).objectDict
        (dictLoadPhase env st1).logicalDBKey r.objectID lineNum line).length
      = (if ok = 0 then 1 else 0)
    ∧ (refErrs env r.jnum lineNum line).length = (if rk = 0 then 1 else 0)
    ∧ (ecodeErrs env r.evidence lineNum).length = (if ek = 0 then 1 else 0)
    ∧ (qualErrs env r.qualifier lineNum).length = (if qk = 0 then 1 else 0)
    ∧ (userErrs env r.editor lineNum).length = (if edk = 0 then 1 else 0)
    ∧ (processLine env fl st lineNum line).2 = StepRes.cont
    ∧ (processLine env fl st lineNum line).1.annotRows = st.annotRows
    ∧ (processLine env fl st lineNum line).1.evidenceRows = st.evidenceRows
    ∧ (processLine env fl st lineNum line).1.noteRows = st.noteRows
    ∧ (processLine env fl st lineNum line).1.propertyRows = st.propertyRows := by
  have hpl := processLine_rejected env fl st lineNum line r st1 hp
    (by rw [hks]; simpa using hfail)
  obtain ⟨ldb, hst1⟩ := parseLine_shape hp
  simp only [valKeys, Prod.mk.injEq] at hks
  obtain ⟨h1, h2, h3, h4, h5, h6⟩ := hks
  refine ⟨?_, ?_, ?_, ?_, ?_, ?_, ?_, ?_, ?_, ?_, ?_, ?_⟩
  · rw [hpl]
    simp [valErrs, hst1, List.append_assoc]
  · cases ht : alookup env.termDict r.termID with
    | some v =>
      rw [ht] at h1
      have : tk ≠ 0 := by
        rw [← h1]
        simpa using htd _ (alookup_mem ht)
      simp [termErrs, ht, this]
    | none =>
      rw [ht] at h1
      simp only [Option.getD_none] at h1
      by_cases ho : env.loadObsolete = "0" <;> simp [termErrs, ht, ho, ← h1]
  · cases ht : objResolve env (dictLoadPhase env st1).objectDict
        (dictLoadPhase env st1).logicalDBKey r.objectID with
    | some v =>
      rw [ht] at h2
      have hv : v ≠ 0 := by
        unfold objResolve at ht
        cases hc : alookup (dictLoadPhase env st1).objectDict r.objectID with
        | some w =>
          rw [hc] at ht
          injection ht with hw
          subst hw
          simpa using hod _ (alookup_mem hc)
        | none =>
          rw [hc] at ht
          exact hos _ _ _ ht
      have : ok ≠ 0 := by rw [← h2]; simpa using hv
      rw [dictLoadPhase_logicalDBKey] at ht
      simp [objErrs, ht, this]
    | none =>
      rw [ht] at h2
      simp only [Option.getD_none] at h2
      rw [dictLoadPhase_logicalDBKey] at ht
      simp [objErrs, ht, ← h2]
  · cases ht : alookup env.referenceDict r.jnum with
    | some v =>
      rw [ht] at h3
      have : rk ≠ 0 := by
        rw [← h3]
        simpa using hrd _ (alookup_mem ht)
      simp [refErrs, ht, this]
    | none =>
      rw [ht] at h3
      simp only [Option.getD_none] at h3
      simp [refErrs, ht, ← h3]
  · cases ht : alookup env.ecodeDict r.evidence with
    | some v =>
      rw [ht] at h4
      have : ek ≠ 0 := by
        rw [← h4]
        simpa using hed _ (alookup_mem ht)
      simp [ecodeErrs, ht, this]
    | none =>
      rw [ht] at h4
      simp only [Option.getD_none] at h4
      simp [ecodeErrs, ht, ← h4]
  · cases ht : alookup env.qualifierDict (qualOpt r.qualifier) with
    | some v =>
      rw [ht] at h5
      have : qk ≠ 0 := by
        rw [← h5]
        simpa using hqd _ (alookup_mem ht)
      simp [qualErrs, ht, this]
    | none =>
      rw [ht] at h5
      simp only [Option.getD_none] at h5
      simp [qualErrs, ht, ← h5]
  · cases ht : alookup env.userDict r.editor with
    | some v =>
      rw [ht] at h6
      have : edk ≠ 0 := by
        rw [← h6]
        simpa using hud _ (alookup_mem ht)
      simp [userErrs, ht, this]
    | none =>
      rw [ht] at h6
      simp only [Option.getD_none] at h6
      simp [userErrs, ht, ← h6]
  · rw [hpl]
  · rw [hpl]; simp [hst1]
  · rw [hpl]; simp [hst1]
  · rw [hpl]; simp [hst1]
  · rw [hpl]; simp [hst1]

/-- Witness for C8: on a concrete line whose term accession and editor are
unknown while the other four fields resolve, both failures are logged in
order and no rows are created. -/
theorem C8_witness :
    parseLine env0 (initState env0) badValLine = some (rC8, initState env0)
    ∧ ((0 : Nat) = 0 ∨ (71 : Nat) = 0 ∨ (21 : Nat) = 0 ∨ (31 : Nat) = 0 ∨ (41 : Nat) = 0
        ∨ (0 : Nat) = 0)
    ∧ ((processLine env0 (initFlags "Standard") (initState env0) 1 badValLine).1.errorLog
        = (initState env0).errorLog
          ++ termErrs env0 "T:9" 1 badValLine
          ++ objErrs env0 (dictLoadPhase env0 (initState env0)).objectDict
              (dictLoadPhase env0 (initState env0)).logicalDBKey "O:1" 1 badValLine
          ++ refErrs env0 "J:1" 1 badValLine
          ++ ecodeErrs env0 "IDA" 1
          ++ qualErrs env0 "q" 1
          ++ userErrs env0 "bad" 1
      ∧ (termErrs env0 "T:9" 1 badValLine).length = (if (0 : Nat) = 0 then 1 else 0)
      ∧ (objErrs env0 (dictLoadPhase env0 (initState env0)).objectDict
          (dictLoadPhase env0 (initState env0)).logicalDBKey "O:1" 1 badValLine).length
        = (if (71 : Nat) = 0 then 1 else 0)
      ∧ (refErrs env0 "J:1" 1 badValLine).length = (if (21 : Nat) = 0 then 1 else 0)
      ∧ (ecodeErrs env0 "IDA" 1).length = (if (31 : Nat) = 0 then 1 else 0)
      ∧ (qualErrs env0 "q" 1).length = (if (41 : Nat) = 0 then 1 else 0)
      ∧ (userErrs env0 "bad" 1).length = (if (0 : Nat) = 0 then 1 else 0)
      ∧ (processLine env0 (initFlags "Standard") (initState env0) 1 badValLine).2 = StepRes.cont
      ∧ (processLine env0 (initFlags "Standard") (initState env0) 1 badValLine).1.annotRows
        = (initState env0).annotRows
      ∧ (processLine env0 (initFlags "Standard") (initState env0) 1 badValLine).1.evidenceRows
        = (initState env0).evidenceRows
      ∧ (processLine env0 (initFlags "Standard") (initState env0) 1 badValLine).1.noteRows
        = (initState env0).noteRows
      ∧ (processLine env0 (initFlags "Standard") (initState env0) 1 badValLine).1.propertyRows
        = (initState env0).propertyRows) :=
  ⟨by decide, by decide,
    C8_validators_all_run env0 (initFlags "Standard") (initState env0) 1 badValLine rC8
      (initState env0) 0 71 21 31 41 0 (by decide) (by decide) (by decide) (by decide)
      (by intro l o k h; simp [env0] at h) (by decide) (by decide) (by decide) (by decide)
      (by decide)⟩

/-! ### Record-creation helper lemmas -/

theorem createAnnotationRecord_found {env : Env} {st : LoadState}
    {objectKey termKey qualifierKey v : Nat} (entryDate : String)
    (h : alookup st.annotDict (mkAKey env.annotTypeKey objectKey termKey qualifierKey)
      = some v) :
    createAnnotationRecord env st objectKey termKey qualifierKey entryDate = (v, st) := by
  simp [createAnnotationRecord, h]

theorem createAnnotationRecord_new {env : Env} {st : LoadState}
    {objectKey termKey qualifierKey : Nat} (entryDate : String)
    (h : alookup st.annotDict (mkAKey env.annotTypeKey objectKey termKey qualifierKey)
      = none) :
    createAnnotationRecord env st objectKey termKey qualifierKey entryDate
      = (st.annotKey,
         { st with
             annotDict := (mkAKey env.annotTypeKey objectKey termKey qualifierKey,
               st.annotKey) :: st.annotDict
             annotKey := st.annotKey + 1
             annotRows := st.annotRows ++
               [⟨st.annotKey, env.annotTypeKey, objectKey, termKey, qualifierKey,
                 entryDate⟩] }) := by
  simp [createAnnotationRecord, h]

theorem createEvidenceRecord_dup {env : Env} {fl : LoadFlags} {st : LoadState}
    {newAnnotKey evidenceKey referenceKey : Nat} {inferredFrom : String} {editorKey : Nat}
    {notes properties entryDate line : String} {lineNum : Nat}
    (h : elemS (mkEKey fl newAnnotKey evidenceKey referenceKey properties notes inferredFrom)
      st.evidenceDict = true) :
    createEvidenceRecord env fl st newAnnotKey evidenceKey referenceKey inferredFrom
        editorKey notes properties entryDate line lineNum
      = ({ st with errorLog := st.errorLog ++ [dupEvidenceMsg lineNum line] }, false) := by
  simp [createEvidenceRecord, h]

theorem createEvidenceRecord_nondup {env : Env} {fl : LoadFlags} {st : LoadState}
    {newAnnotKey evidenceKey referenceKey : Nat} {inferredFrom : String} {editorKey : Nat}
    {notes properties entryDate line : String} {lineNum : Nat}
    (h : elemS (mkEKey fl newAnnotKey evidenceKey referenceKey properties notes inferredFrom)
      st.evidenceDict = false) :
    createEvidenceRecord env fl st newAnnotKey evidenceKey referenceKey inferredFrom
        editorKey notes properties entryDate line lineNum
      = ({ st with
            evidenceDict :=
              mkEKey fl newAnnotKey evidenceKey referenceKey properties notes inferredFrom
                :: st.evidenceDict
            evidenceRows := st.evidenceRows ++
              [⟨st.evidencePrimaryKey, newAnnotKey, evidenceKey, referenceKey,
                inferredFrom, editorKey, entryDate⟩]
            noteRows := st.noteRows ++
              (if notes.length > 0 then
                [(⟨st.noteKey, st.evidencePrimaryKey, 25, 1008, notes, editorKey,
                  entryDate⟩ : NoteRow)]
               else [])
            noteKey := st.noteKey + (if notes.length > 0 then 1 else 0)
            propertyRows := st.propertyRows ++
              (propResult env st.evidencePrimaryKey editorKey entryDate lineNum line
                properties st.propertyKey).1
            errorLog := st.errorLog ++
              (propResult env st.evidencePrimaryKey editorKey entryDate lineNum line
                properties st.propertyKey).2.1
            propertyKey :=
              (propResult env st.evidencePrimaryKey editorKey entryDate lineNum line
                properties st.propertyKey).2.2.1
            evidencePrimaryKey := st.evidencePrimaryKey +
              (if (propResult env st.evidencePrimaryKey editorKey entryDate lineNum line
                properties st.propertyKey).2.2.2 then 0 else 1) },
         (propResult env st.evidencePrimaryKey editorKey entryDate lineNum line
           properties st.propertyKey).2.2.2) := by
  rw [createEvidenceRecord]
  simp only [h, Bool.false_eq_true, if_false]
  split <;> split <;> simp_all

/-! ### Main-flow helper lemmas -/

@[simp] theorem bcpFiles_annotRows (debug : Bool) (st : LoadState) :
    (bcpFiles debug st).annotRows = st.annotRows := by
  unfold bcpFiles; split; rfl; split <;> rfl

@[simp] theorem bcpFiles_evidenceRows (debug : Bool) (st : LoadState) :
    (bcpFiles debug st).evidenceRows = st.evidenceRows := by
  unfold bcpFiles; split; rfl; split <;> rfl

@[simp] theorem bcpFiles_noteRows (debug : Bool) (st : LoadState) :
    (bcpFiles debug st).noteRows = st.noteRows := by
  unfold bcpFiles; split; rfl; split <;> rfl

@[simp] theorem bcpFiles_propertyRows (debug : Bool) (st : LoadState) :
    (bcpFiles debug st).propertyRows = st.propertyRows := by
  unfold bcpFiles; split; rfl; split <;> rfl

@[simp] theorem bcpFiles_errorLog (debug : Bool) (st : LoadState) :
    (bcpFiles debug st).errorLog = st.errorLog := by
  unfold bcpFiles; split; rfl; split <;> rfl

@[simp] theorem bcpFiles_true (st : LoadState) : bcpFiles true st = st := by
  unfold bcpFiles; rfl

theorem verifyMode_preview (env : Env) (fl : LoadFlags) (st : LoadState) :
    verifyMode "preview" env fl st
      = ((if env.delByReference ≠ "J:0" then
            verifyReference env st env.delByReference 0 ""
          else (0, st)).2, true, StepRes.cont) := by
  rw [verifyMode]
  simp [pyIsNone]

theorem verifyMode_append (env : Env) (fl : LoadFlags) (st : LoadState) :
    verifyMode "append" env fl st
      = ((if env.delByReference ≠ "J:0" then
            verifyReference env st env.delByReference 0 ""
          else (0, st)).2, false, StepRes.cont) := by
  rw [verifyMode]
  simp [pyIsNone]

theorem createAnnotationRecord_dbOps (env : Env) (st : LoadState)
    (objectKey termKey qualifierKey : Nat) (entryDate : String) :
    ((createAnnotationRecord env st objectKey termKey qualifierKey entryDate).2).dbOps
      = st.dbOps := by
  rcases h : alookup st.annotDict (mkAKey env.annotTypeKey objectKey termKey qualifierKey)
    with _ | v <;> simp [createAnnotationRecord, h]

theorem createEvidenceRecord_dbOps (env : Env) (fl : LoadFlags) (st : LoadState)
    (newAnnotKey evidenceKey referenceKey : Nat) (inferredFrom : String) (editorKey : Nat)
    (notes properties entryDate line : String) (lineNum : Nat) :
    ((createEvidenceRecord env fl st newAnnotKey evidenceKey referenceKey inferredFrom
        editorKey notes properties entryDate line lineNum).1).dbOps = st.dbOps := by
  by_cases h : elemS (mkEKey fl newAnnotKey evidenceKey referenceKey properties notes
      inferredFrom) st.evidenceDict = true
  · rw [createEvidenceRecord_dup h]
  · rw [createEvidenceRecord_nondup (by simpa using h)]

theorem acceptLine_dbOps (env : Env) (fl : LoadFlags) (st3 : LoadState)
    (objectKey termKey qualifierKey evidenceKey referenceKey editorKey : Nat)
    (r : ParsedLine) (entryDate line : String) (lineNum : Nat) :
    ((acceptLine env fl st3 objectKey termKey qualifierKey evidenceKey referenceKey
        editorKey r entryDate line lineNum).1).dbOps = st3.dbOps := by
  unfold acceptLine
  dsimp only
  split <;> simp [createEvidenceRecord_dbOps, createAnnotationRecord_dbOps]

theorem processLine_dbOps (env : Env) (fl : LoadFlags) (st : LoadState) (lineNum : Nat)
    (line : String) : ((processLine env fl st lineNum line).1).dbOps = st.dbOps := by
  cases hp : parseLine env st line with
  | none => simp [processLine, hp]
  | some pr =>
    obtain ⟨r, st1⟩ := pr
    obtain ⟨ldb, hst1⟩ := parseLine_shape hp
    rw [processLine, hp]
    simp only [validatePhase_eq]
    split
    · simp [hst1]
    · simp [acceptLine_dbOps, hst1]

theorem processFileAux_dbOps (env : Env) (fl : LoadFlags) (lines : List String) :
    ∀ (st : LoadState) (n : Nat), ((processFileAux env fl st n lines).1).dbOps = st.dbOps := by
  induction lines with
  | nil => intro st n; rfl
  | cons l rest ih =>
    intro st n
    have hstep := processLine_dbOps env fl st (n + 1) l
    rcases hpl : processLine env fl st (n + 1) l with ⟨st1, sr⟩
    rw [hpl] at hstep
    have hstep1 : st1.dbOps = st.dbOps := hstep
    cases sr <;> simp [processFileAux, hpl, ih, hstep1]

@[simp] theorem setPrimaryKeys_dbOps (st : LoadState) :
    (setPrimaryKeys st).dbOps
      = st.dbOps ++ [(DbOp.nextvalSeq "voc_annot_seq", true),
          (DbOp.nextvalSeq "voc_evidence_seq", true), (DbOp.nextvalSeq "mgi_note_seq", true),
          (DbOp.nextvalSeq "voc_evidence_property_seq", true)] := rfl

theorem refCheck_dbOps (env : Env) (st : LoadState) :
    ((if env.delByReference ≠ "J:0" then
        verifyReference env st env.delByReference 0 ""
      else (0, st)).2).dbOps = st.dbOps := by
  split
  · simp [verifyReference_eq]
  · rfl

/-- Claim C5 counterexample: in preview mode the four `nextval` fetches are
still executed against the store; `nextval` advances a database sequence, a
mutating operation, so preview mode does commit a mutating operation. -/
theorem C5_preview_commits_mutation_cx :
    (DbOp.nextvalSeq "voc_annot_seq", true) ∈ (runMain "preview" env0 [goodLine]).1.dbOps
    ∧ (DbOp.nextvalSeq "voc_annot_seq").isMutating = true := by decide

/-- Claim C5 (amended): in preview mode with a non-mcv load type, the only
operations issued to the store are the four initial `nextval` sequence
fetches — no deletion, no insertion, no bulk-load invocation and no sequence
high-water-mark update is committed — while all validation and record
processing is still performed exactly as in `append` mode (same bcp-file rows
and same error report). -/
theorem C5_preview_amended (env : Env) (lines : List String)
    (hmcv : (initFlags env.loadType).isMCV = false) :
    (runMain "preview" env lines).1.dbOps
      = [(DbOp.nextvalSeq "voc_annot_seq", true), (DbOp.nextvalSeq "voc_evidence_seq", true),
         (DbOp.nextvalSeq "mgi_note_seq", true),
         (DbOp.nextvalSeq "voc_evidence_property_seq", true)]
    ∧ (runMain "preview" env lines).1.annotRows = (runMain "append" env lines).1.annotRows
    ∧ (runMain "preview" env lines).1.evidenceRows = (runMain "append" env lines).1.evidenceRows
    ∧ (runMain "preview" env lines).1.noteRows = (runMain "append" env lines).1.noteRows
    ∧ (runMain "preview" env lines).1.propertyRows
      = (runMain "append" env lines).1.propertyRows
    ∧ (runMain "preview" env lines).1.errorLog = (runMain "append" env lines).1.errorLog
    ∧ (runMain "preview" env lines).2 = (runMain "append" env lines).2 := by
  rw [runMain, runMain, verifyMode_preview, verifyMode_append]
  dsimp only
  simp only [hmcv, Bool.false_eq_true, if_false]
  rcases hpf : processFile env (initFlags env.loadType)
      (setPrimaryKeys
        (if env.delByReference ≠ "J:0" then
          verifyReference env (initState env) env.delByReference 0 ""
        else (0, initState env)).2) lines with ⟨st3, out⟩
  have h3 : st3.dbOps
      = [(DbOp.nextvalSeq "voc_annot_seq", true), (DbOp.nextvalSeq "voc_evidence_seq", true),
         (DbOp.nextvalSeq "mgi_note_seq", true),
         (DbOp.nextvalSeq "voc_evidence_property_seq", true)] := by
    have hfix := processFileAux_dbOps env (initFlags env.loadType) lines
      (setPrimaryKeys
        (if env.delByReference ≠ "J:0" then
          verifyReference env (initState env) env.delByReference 0 ""
        else (0, initState env)).2) 0
    rw [show processFileAux env (initFlags env.loadType)
        (setPrimaryKeys
          (if env.delByReference ≠ "J:0" then
            verifyReference env (initState env) env.delByReference 0 ""
          else (0, initState env)).2) 0 lines
      = processFile env (initFlags env.loadType)
        (setPrimaryKeys
          (if env.delByReference ≠ "J:0" then
            verifyReference env (initState env) env.delByReference 0 ""
          else (0, initState env)).2) lines from rfl, hpf] at hfix
    rw [hfix, setPrimaryKeys_dbOps, refCheck_dbOps]
    have : (initState env).dbOps = [] := rfl
    rw [this]
    rfl
  cases out <;> simp [h3]

/-- Witness for C5 (amended), instantiated at a concrete standard-load
environment with one valid input line. -/
theorem C5_preview_amended_witness :
    (initFlags env0.loadType).isMCV = false
    ∧ ((runMain "preview" env0 [goodLine]).1.dbOps
      = [(DbOp.nextvalSeq "voc_annot_seq", true), (DbOp.nextvalSeq "voc_evidence_seq", true),
         (DbOp.nextvalSeq "mgi_note_seq", true),
         (DbOp.nextvalSeq "voc_evidence_property_seq", true)]
    ∧ (runMain "preview" env0 [goodLine]).1.annotRows
      = (runMain "append" env0 [goodLine]).1.annotRows
    ∧ (runMain "preview" env0 [goodLine]).1.evidenceRows
      = (runMain "append" env0 [goodLine]).1.evidenceRows
    ∧ (runMain "preview" env0 [goodLine]).1.noteRows
      = (runMain "append" env0 [goodLine]).1.noteRows
    ∧ (runMain "preview" env0 [goodLine]).1.propertyRows
      = (runMain "append" env0 [goodLine]).1.propertyRows
    ∧ (runMain "preview" env0 [goodLine]).1.errorLog
      = (runMain "append" env0 [goodLine]).1.errorLog
    ∧ (runMain "preview" env0 [goodLine]).2 = (runMain "append" env0 [goodLine]).2) :=
  ⟨by decide, C5_preview_amended env0 [goodLine] (by decide)⟩

/-- Claim C6: the code does not abort on an unknown deletion reference.  With
mode `new` and `DELETEREFERENCE = J:99999` unknown, the run logs an
`Invalid Reference` line, scopes the deletion to reference key 0, runs the
whole cascade and finishes with a normal outcome — the `is None` guard before
`exit(1, 'Invalid Reference...')` can never fire because `verifyReference`
returns the integer 0 for an unknown reference. -/
theorem C6_invalid_reference_not_fatal :
    (runMain "new" envC6 []).2 = Outcome.finished
    ∧ (DbOp.createToDelete (Scope.byReference 0), true) ∈ (runMain "new" envC6 []).1.dbOps
    ∧ (DbOp.deleteEvidence, true) ∈ (runMain "new" envC6 []).1.dbOps
    ∧ "Invalid Reference (0): J:99999\n\n" ∈ (runMain "new" envC6 []).1.errorLog
    ∧ pyIsNone (verifyReference envC6 (initState envC6) "J:99999" 0 "").1 = false := by
  decide

/-- Claim C9 (amended): an input line with fewer than 9 tab-delimited columns
aborts the whole run immediately with exit status 1, reporting the line on
stderr; the remaining lines are not processed and the state is otherwise
unchanged. -/
theorem C9_short_line_aborts_run (env : Env) (fl : LoadFlags) (st : LoadState)
    (lineNum : Nat) (line : String) (rest : List String)
    (h : (lineTokens line).length < 9) :
    processFileAux env fl st lineNum (line :: rest)
      = ({ st with stderrLog := st.stderrLog ++ [invalidLineMsg (lineNum + 1) line] },
         Outcome.exited 1) := by
  have hp : parseLine env st line = none := by
    unfold parseLine
    simp [h]
  simp [processFileAux, processLine, hp]

/-- Witness for C9 (amended): the concrete two-column line aborts the run at
line 1 and the following valid line is never reached. -/
theorem C9_short_line_aborts_run_witness :
    (lineTokens shortLine).length < 9
    ∧ processFileAux env0 (initFlags "Standard") (initState env0) 0 [shortLine, goodLine]
      = ({ initState env0 with
            stderrLog := (initState env0).stderrLog ++ [invalidLineMsg 1 shortLine] },
         Outcome.exited 1) :=
  ⟨by decide, C9_short_line_aborts_run env0 (initFlags "Standard") (initState env0) 0
    shortLine [goodLine] (by decide)⟩

/-- Counterexample to C9 as stated: processing does not continue after a
short line.  The run over [shortLine, goodLine] exits with status 1 and emits
no evidence row, although goodLine alone yields exactly one evidence row. -/
theorem C9_no_continuation_cx :
    (runMain "append" env0 [shortLine, goodLine]).2 = Outcome.exited 1
    ∧ (runMain "append" env0 [shortLine, goodLine]).1.evidenceRows = []
    ∧ (runMain "append" env0 [goodLine]).1.evidenceRows.length = 1 := by decide

/-- Claim C10: an otherwise-valid input line whose property blob contains a
pair with two `&=&` occurrences — or none at all — raises an unhandled
exception that terminates the whole run, unlike the recoverable
invalid-property path (the same line with a well-formed blob finishes). -/
theorem C10_malformed_pair_crashes :
    (runMain "append" env0 [propCrashLine]).2 = Outcome.crashed
    ∧ (runMain "append" env0 [propNoSepLine]).2 = Outcome.crashed
    ∧ (runMain "append" env0 [propMixLine]).2 = Outcome.finished := by decide

/-! ### Property-processing lemmas (C7) -/

theorem processPairs_wf (env : Env) (evKey editorKey : Nat) (entryDate : String)
    (lineNum : Nat) (line : String) (stanza : Nat) :
    ∀ (ps : List String) (seqnum pk : Nat),
      (∀ p ∈ ps, (pySplit p ("&=&")).length = 2) →
      (processPairs env evKey editorKey entryDate lineNum line stanza ps seqnum pk).2.2.2
        = false
      ∧ (processPairs env evKey editorKey entryDate lineNum line stanza ps seqnum pk).1.map
          (fun pr => (pr.termKey, pr.value)) = specGoodPairs env ps
      ∧ (processPairs env evKey editorKey entryDate lineNum line stanza ps seqnum pk).2.1
        = specInvalidPairErrs env ps lineNum line := by
  intro ps
  induction ps with
  | nil => intro seqnum pk hwf; exact ⟨rfl, rfl, rfl⟩
  | cons p rest ih =>
    intro seqnum pk hwf
    have h2 := hwf p (List.mem_cons_self _ _)
    obtain ⟨t, v, hps⟩ : ∃ t v, pySplit p ("&=&") = [t, v] := by
      rcases hx : pySplit p ("&=&") with _ | ⟨t, tl⟩
      · rw [hx] at h2; simp at h2
      · rcases tl with _ | ⟨v, tl2⟩
        · rw [hx] at h2; simp at h2
        · rcases tl2 with _ | ⟨w, tl3⟩
          · exact ⟨t, v, rfl⟩
          · rw [hx] at h2; simp at h2
    have hrest : ∀ q ∈ rest, (pySplit q ("&=&")).length = 2 :=
      fun q hq => hwf q (List.mem_cons_of_mem _ hq)
    cases hl : alookup env.pTermDict t with
    | some tk =>
      have hr := ih (seqnum + 1) (pk + 1) hrest
      simp [processPairs, specGoodPairs, specInvalidPairErrs, hps, hl, hr.1, hr.2.1,
        hr.2.2, specGoodPairs, specInvalidPairErrs]
    | none =>
      have hr := ih seqnum pk hrest
      simp [processPairs, specGoodPairs, specInvalidPairErrs, hps, hl, hr.1, hr.2.1,
        hr.2.2, specGoodPairs, specInvalidPairErrs]

theorem processStanzas_wf (env : Env) (evKey editorKey : Nat) (entryDate : String)
    (lineNum : Nat) (line : String) :
    ∀ (ss : List String) (stanza pk : Nat),
      (∀ s ∈ ss, ∀ p ∈ pySplit s ("&==&"), (pySplit p ("&=&")).length = 2) →
      (processStanzas env evKey editorKey entryDate lineNum line ss stanza pk).2.2.2 = false
      ∧ (processStanzas env evKey editorKey entryDate lineNum line ss stanza pk).1.map
          (fun pr => (pr.termKey, pr.value))
        = ss.flatMap (fun s => specGoodPairs env (pySplit s ("&==&")))
      ∧ (processStanzas env evKey editorKey entryDate lineNum line ss stanza pk).2.1
        = ss.flatMap (fun s => specInvalidPairErrs env (pySplit s ("&==&")) lineNum line) := by
  intro ss
  induction ss with
  | nil => intro stanza pk hwf; exact ⟨rfl, rfl, rfl⟩
  | cons s rest ih =>
    intro stanza pk hwf
    have hpair := processPairs_wf env evKey editorKey entryDate lineNum line stanza
      (pySplit s ("&==&")) 1 pk (hwf s (List.mem_cons_self _ _))
    have hrest : ∀ u ∈ rest, ∀ p ∈ pySplit u ("&==&"), (pySplit p ("&=&")).length = 2 :=
      fun u hu => hwf u (List.mem_cons_of_mem _ hu)
    have hr := ih (stanza + 1)
      (processPairs env evKey editorKey entryDate lineNum line stanza
        (pySplit s ("&==&")) 1 pk).2.2.1 hrest
    rw [processStanzas]
    simp only [hpair.1, Bool.false_eq_true, if_false]
    simp [hpair.2.1, hpair.2.2, hr.1, hr.2.1, hr.2.2]

/-- Claim C7: for a non-duplicate line with a well-formed property blob, a
pair whose term does not resolve is logged as an invalid property and only
that pair is skipped — the Property rows are exactly those of the resolvable
pairs (in order) and the error lines exactly those of the unresolvable ones —
while the host Evidence row is still created; an empty blob yields zero
Property rows and no error. -/
theorem C7_invalid_property_skips_only_pair (env : Env) (fl : LoadFlags) (st : LoadState)
    (newAnnotKey evidenceKey referenceKey : Nat) (inferredFrom : String) (editorKey : Nat)
    (notes properties entryDate line : String) (lineNum : Nat)
    (hnd : elemS (mkEKey fl newAnnotKey evidenceKey referenceKey properties notes
      inferredFrom) st.evidenceDict = false)
    (hwf : properties = ""
      ∨ ∀ s ∈ pySplit properties ("&===&"), ∀ p ∈ pySplit s ("&==&"),
          (pySplit p ("&=&")).length = 2) :
    (createEvidenceRecord env fl st newAnnotKey evidenceKey referenceKey inferredFrom
        editorKey notes properties entryDate line lineNum).2 = false
    ∧ (createEvidenceRecord env fl st newAnnotKey evidenceKey referenceKey inferredFrom
        editorKey notes properties entryDate line lineNum).1.evidenceRows
      = st.evidenceRows ++
        [⟨st.evidencePrimaryKey, newAnnotKey, evidenceKey, referenceKey, inferredFrom,
          editorKey, entryDate⟩]
    ∧ (createEvidenceRecord env fl st newAnnotKey evidenceKey referenceKey inferredFrom
        editorKey notes properties entryDate line lineNum).1.propertyRows.map
          (fun pr => (pr.termKey, pr.value))
      = st.propertyRows.map (fun pr => (pr.termKey, pr.value))
        ++ specGoodStanzas env properties
    ∧ (createEvidenceRecord env fl st newAnnotKey evidenceKey referenceKey inferredFrom
        editorKey notes properties entryDate line lineNum).1.errorLog
      = st.errorLog ++ specInvalidStanzaErrs env properties lineNum line
    ∧ (properties = "" →
        (createEvidenceRecord env fl st newAnnotKey evidenceKey referenceKey inferredFrom
          editorKey notes properties entryDate line lineNum).1.propertyRows
          = st.propertyRows
        ∧ (createEvidenceRecord env fl st newAnnotKey evidenceKey referenceKey inferredFrom
            editorKey notes properties entryDate line lineNum).1.errorLog = st.errorLog) := by
  rw [createEvidenceRecord_nondup hnd]
  rcases hwf with hemp | hwf
  · subst hemp
    have hg : specGoodStanzas env "" = [] := rfl
    have hb : ∀ ln l, specInvalidStanzaErrs env "" ln l = [] := fun ln l => rfl
    have hpr : ∀ pk, propResult env st.evidencePrimaryKey editorKey entryDate lineNum line
        "" pk = ([], [], pk, false) := fun pk => rfl
    simp [hpr, hg, hb]
  · by_cases hlen : properties.length > 0
    · have hst := processStanzas_wf env st.evidencePrimaryKey editorKey entryDate lineNum
        line (pySplit properties ("&===&")) 1 st.propertyKey hwf
      have hpr : propResult env st.evidencePrimaryKey editorKey entryDate lineNum line
          properties st.propertyKey
        = processStanzas env st.evidencePrimaryKey editorKey entryDate lineNum line
            (pySplit properties ("&===&")) 1 st.propertyKey := by
        unfold propResult
        rw [if_pos hlen]
      rw [hpr]
      refine ⟨by simp [hst.1], by simp [hst.1], ?_, ?_, ?_⟩
      · simp [hst.2.1, specGoodStanzas]
      · simp [hst.2.2, specInvalidStanzaErrs]
      · intro hemp
        subst hemp
        simp at hlen
    · have hlen0 : properties.length = 0 := by omega
      have hdl : properties.data = [] := List.length_eq_zero.mp hlen0
      have hemp : properties = "" := String.ext (by rw [hdl])
      subst hemp
      have hg : specGoodStanzas env "" = [] := rfl
      have hb : ∀ ln l, specInvalidStanzaErrs env "" ln l = [] := fun ln l => rfl
      have hpr : ∀ pk, propResult env st.evidencePrimaryKey editorKey entryDate lineNum
          line "" pk = ([], [], pk, false) := fun pk => rfl
      simp [hpr, hg, hb]

/-- Witness for C7: a concrete blob with one resolvable pair and one
unresolvable sibling in the same stanza yields exactly the one Property row,
the one invalid-property error, and the host Evidence row. -/
theorem C7_witness :
    elemS (mkEKey (initFlags "Standard") 100 31 21 "p1&=&v1&==&bad&=&v2" "note" "")
        (initState env0).evidenceDict = false
    ∧ ("p1&=&v1&==&bad&=&v2" = ""
      ∨ ∀ s ∈ pySplit "p1&=&v1&==&bad&=&v2" ("&===&"), ∀ p ∈ pySplit s ("&==&"),
          (pySplit p ("&=&")).length = 2)
    ∧ ((createEvidenceRecord env0 (initFlags "Standard") (initState env0) 100 31 21 ""
          51 "note" "p1&=&v1&==&bad&=&v2" "01/01/2026" propMixLine 1).2 = false
      ∧ (createEvidenceRecord env0 (initFlags "Standard") (initState env0) 100 31 21 ""
          51 "note" "p1&=&v1&==&bad&=&v2" "01/01/2026" propMixLine 1).1.evidenceRows
        = (initState env0).evidenceRows ++ [⟨(initState env0).evidencePrimaryKey, 100, 31,
            21, "", 51, "01/01/2026"⟩]
      ∧ (createEvidenceRecord env0 (initFlags "Standard") (initState env0) 100 31 21 ""
          51 "note" "p1&=&v1&==&bad&=&v2" "01/01/2026" propMixLine 1).1.propertyRows.map
            (fun pr => (pr.termKey, pr.value))
        = (initState env0).propertyRows.map (fun pr => (pr.termKey, pr.value))
          ++ specGoodStanzas env0 "p1&=&v1&==&bad&=&v2"
      ∧ (createEvidenceRecord env0 (initFlags "Standard") (initState env0) 100 31 21 ""
          51 "note" "p1&=&v1&==&bad&=&v2" "01/01/2026" propMixLine 1).1.errorLog
        = (initState env0).errorLog
          ++ specInvalidStanzaErrs env0 "p1&=&v1&==&bad&=&v2" 1 propMixLine
      ∧ ("p1&=&v1&==&bad&=&v2" = "" →
          (createEvidenceRecord env0 (initFlags "Standard") (initState env0) 100 31 21 ""
            51 "note" "p1&=&v1&==&bad&=&v2" "01/01/2026" propMixLine 1).1.propertyRows
            = (initState env0).propertyRows
          ∧ (createEvidenceRecord env0 (initFlags "Standard") (initState env0) 100 31 21
              "" 51 "note" "p1&=&v1&==&bad&=&v2" "01/01/2026" propMixLine
              1).1.errorLog = (initState env0).errorLog)) :=
  ⟨by decide, Or.inr (by decide),
    C7_invalid_property_skips_only_pair env0 (initFlags "Standard") (initState env0) 100 31
      21 "" 51 "note" "p1&=&v1&==&bad&=&v2" "01/01/2026" propMixLine 1 (by decide)
      (Or.inr (by decide))⟩

/-! ### Annotation-cache invariant lemmas (C3, C4) -/

theorem createEvidenceRecord_annotDict (env : Env) (fl : LoadFlags) (st : LoadState)
    (newAnnotKey evidenceKey referenceKey : Nat) (inferredFrom : String) (editorKey : Nat)
    (notes properties entryDate line : String) (lineNum : Nat) :
    ((createEvidenceRecord env fl st newAnnotKey evidenceKey referenceKey inferredFrom
        editorKey notes properties entryDate line lineNum).1).annotDict = st.annotDict := by
  by_cases h : elemS (mkEKey fl newAnnotKey evidenceKey referenceKey properties notes
      inferredFrom) st.evidenceDict = true
  · rw [createEvidenceRecord_dup h]
  · rw [createEvidenceRecord_nondup (by simpa using h)]

theorem createEvidenceRecord_annotRows (env : Env) (fl : LoadFlags) (st : LoadState)
    (newAnnotKey evidenceKey referenceKey : Nat) (inferredFrom : String) (editorKey : Nat)
    (notes properties entryDate line : String) (lineNum : Nat) :
    ((createEvidenceRecord env fl st newAnnotKey evidenceKey referenceKey inferredFrom
        editorKey notes properties entryDate line lineNum).1).annotRows = st.annotRows := by
  by_cases h : elemS (mkEKey fl newAnnotKey evidenceKey referenceKey properties notes
      inferredFrom) st.evidenceDict = true
  · rw [createEvidenceRecord_dup h]
  · rw [createEvidenceRecord_nondup (by simpa using h)]

theorem createEvidenceRecord_annotKey (env : Env) (fl : LoadFlags) (st : LoadState)
    (newAnnotKey evidenceKey referenceKey : Nat) (inferredFrom : String) (editorKey : Nat)
    (notes properties entryDate line : String) (lineNum : Nat) :
    ((createEvidenceRecord env fl st newAnnotKey evidenceKey referenceKey inferredFrom
        editorKey notes properties entryDate line lineNum).1).annotKey = st.annotKey := by
  by_cases h : elemS (mkEKey fl newAnnotKey evidenceKey referenceKey properties notes
      inferredFrom) st.evidenceDict = true
  · rw [createEvidenceRecord_dup h]
  · rw [createEvidenceRecord_nondup (by simpa using h)]

theorem InvA_congr {env : Env} {st st' : LoadState} (h : InvA env st)
    (h1 : st'.annotDict = st.annotDict) (h2 : st'.annotRows = st.annotRows)
    (h3 : st'.annotKey = st.annotKey) : InvA env st' := by
  unfold InvA at h ⊢
  rw [h1, h2, h3]
  exact h

theorem createAnnotationRecord_invA {env : Env} {st : LoadState}
    {objectKey termKey qualifierKey : Nat} {entryDate : String} (h : InvA env st) :
    InvA env (createAnnotationRecord env st objectKey termKey qualifierKey entryDate).2 := by
  obtain ⟨h1, h2, h3, h4, h5⟩ := h
  cases hl : alookup st.annotDict (mkAKey env.annotTypeKey objectKey termKey qualifierKey)
    with
  | some v =>
    rw [createAnnotationRecord_found entryDate hl]
    exact ⟨h1, h2, h3, h4, h5⟩
  | none =>
    rw [createAnnotationRecord_new entryDate hl]
    refine ⟨?_, ?_, ?_, ?_, ?_⟩
    · intro r hr
      simp only [List.mem_append, List.mem_singleton] at hr
      rcases hr with hr | hr
      · have hk := h1 r hr
        have hne : mkAKey env.annotTypeKey r.objectKey r.termKey r.qualifierKey
            ≠ mkAKey env.annotTypeKey objectKey termKey qualifierKey := by
          intro he
          rw [he, hl] at hk
          exact Option.noConfusion hk
        rw [alookup_cons, if_neg (fun he => hne he.symm)]
        exact h1 r hr
      · subst hr
        rw [alookup_cons]
        simp
    · intro r hr
      simp only [List.mem_append, List.mem_singleton] at hr
      rcases hr with hr | hr
      · exact Nat.lt_succ_of_lt (h2 r hr)
      · subst hr
        exact Nat.lt_succ_self _
    · intro r1 hr1 r2 hr2 he
      simp only [List.mem_append, List.mem_singleton] at hr1 hr2
      rcases hr1 with hr1 | hr1 <;> rcases hr2 with hr2 | hr2
      · exact h3 r1 hr1 r2 hr2 he
      · subst hr2
        exact absurd he (Nat.ne_of_lt (h2 r1 hr1))
      · subst hr1
        exact absurd he.symm (Nat.ne_of_lt (h2 r2 hr2))
      · subst hr1
        subst hr2
        rfl
    · intro r hr
      simp only [List.mem_append, List.mem_singleton] at hr
      rcases hr with hr | hr
      · exact h4 r hr
      · subst hr
        cases hd : alookup env.annotDict0
            (mkAKey env.annotTypeKey objectKey termKey qualifierKey) with
        | none => rfl
        | some w =>
          have := h5 _ (by rw [hd]; rfl)
          rw [hl] at this
          exact absurd this (by simp)
    · intro k hk
      have := h5 k hk
      rw [alookup_cons]
      split
      · rfl
      · exact this

theorem createAnnotationRecord_stab {env : Env} {st : LoadState}
    {objectKey termKey qualifierKey : Nat} {entryDate : String} {k : String} {v : Nat}
    (h : alookup st.annotDict k = some v) :
    alookup
      ((createAnnotationRecord env st objectKey termKey qualifierKey entryDate).2).annotDict
      k = some v := by
  cases hl : alookup st.annotDict (mkAKey env.annotTypeKey objectKey termKey qualifierKey)
    with
  | some w => rw [createAnnotationRecord_found entryDate hl]; exact h
  | none =>
    rw [createAnnotationRecord_new entryDate hl]
    rw [alookup_cons]
    split
    · rename_i he
      rw [he] at hl
      rw [h] at hl
      exact Option.noConfusion hl
    · exact h

theorem acceptLine_invA {env : Env} {fl : LoadFlags} {st3 : LoadState}
    {objectKey termKey qualifierKey evidenceKey referenceKey editorKey : Nat}
    {r : ParsedLine} {entryDate line : String} {lineNum : Nat} (h : InvA env st3) :
    InvA env ((acceptLine env fl st3 objectKey termKey qualifierKey evidenceKey
      referenceKey editorKey r entryDate line lineNum).1) := by
  unfold acceptLine
  dsimp only
  have hIA : InvA env ((createEvidenceRecord env fl
      (createAnnotationRecord env st3 objectKey termKey qualifierKey entryDate).2
      (createAnnotationRecord env st3 objectKey termKey qualifierKey entryDate).1
      evidenceKey referenceKey r.inferredFrom editorKey r.notes r.properties entryDate
      line lineNum).1) :=
    InvA_congr (createAnnotationRecord_invA h)
      (createEvidenceRecord_annotDict _ _ _ _ _ _ _ _ _ _ _ _ _)
      (createEvidenceRecord_annotRows _ _ _ _ _ _ _ _ _ _ _ _ _)
      (createEvidenceRecord_annotKey _ _ _ _ _ _ _ _ _ _ _ _ _)
  split
  · exact hIA
  · exact InvA_congr hIA rfl rfl rfl

theorem processLine_InvA (env : Env) (fl : LoadFlags) (st : LoadState) (lineNum : Nat)
    (line : String) (h : InvA env st) : InvA env (processLine env fl st lineNum line).1 := by
  cases hp : parseLine env st line with
  | none =>
    rw [processLine, hp]
    exact InvA_congr h rfl rfl rfl
  | some pr =>
    obtain ⟨r, st1⟩ := pr
    obtain ⟨ldb, hst1⟩ := parseLine_shape hp
    have h1 : InvA env st1 := InvA_congr h (by rw [hst1]) (by rw [hst1]) (by rw [hst1])
    have h2 : InvA env (dictLoadPhase env st1) :=
      InvA_congr h1 (dictLoadPhase_annotDict env st1) (dictLoadPhase_annotRows env st1)
        (dictLoadPhase_annotKey env st1)
    rw [processLine, hp]
    simp only [validatePhase_eq]
    split
    · exact InvA_congr h2 rfl rfl rfl
    · exact acceptLine_invA (InvA_congr h2 rfl rfl rfl)

theorem acceptLine_stab {env : Env} {fl : LoadFlags} {st3 : LoadState}
    {objectKey termKey qualifierKey evidenceKey referenceKey editorKey : Nat}
    {r : ParsedLine} {entryDate line : String} {lineNum : Nat} {k : String} {v : Nat}
    (h : alookup st3.annotDict k = some v) :
    alookup ((acceptLine env fl st3 objectKey termKey qualifierKey evidenceKey
      referenceKey editorKey r entryDate line lineNum).1).annotDict k = some v := by
  unfold acceptLine
  dsimp only
  have hst : alookup ((createEvidenceRecord env fl
      (createAnnotationRecord env st3 objectKey termKey qualifierKey entryDate).2
      (createAnnotationRecord env st3 objectKey termKey qualifierKey entryDate).1
      evidenceKey referenceKey r.inferredFrom editorKey r.notes r.properties entryDate
      line lineNum).1).annotDict k = some v := by
    rw [createEvidenceRecord_annotDict]
    exact createAnnotationRecord_stab h
  split
  · exact hst
  · exact hst

theorem processLine_stab (env : Env) (fl : LoadFlags) (st : LoadState) (lineNum : Nat)
    (line : String) {k : String} {v : Nat} (h : alookup st.annotDict k = some v) :
    alookup ((processLine env fl st lineNum line).1).annotDict k = some v := by
  cases hp : parseLine env st line with
  | none => rw [processLine, hp]; exact h
  | some pr =>
    obtain ⟨r, st1⟩ := pr
    obtain ⟨ldb, hst1⟩ := parseLine_shape hp
    have h1 : alookup (dictLoadPhase env st1).annotDict k = some v := by
      rw [dictLoadPhase_annotDict, hst1]
      exact h
    rw [processLine, hp]
    simp only [validatePhase_eq]
    split
    · exact h1
    · exact acceptLine_stab h1

theorem createAnnotationRecord_evidenceRows (env : Env) (st : LoadState)
    (objectKey termKey qualifierKey : Nat) (entryDate : String) :
    ((createAnnotationRecord env st objectKey termKey qualifierKey entryDate).2).evidenceRows
      = st.evidenceRows := by
  rcases hl : alookup st.annotDict (mkAKey env.annotTypeKey objectKey termKey qualifierKey)
    with _ | v <;> simp [createAnnotationRecord, hl]

theorem createAnnotationRecord_fst_of_some {env : Env} {st : LoadState}
    {objectKey termKey qualifierKey v : Nat} {entryDate : String}
    (hv : alookup st.annotDict (mkAKey env.annotTypeKey objectKey termKey qualifierKey)
      = some v) :
    (createAnnotationRecord env st objectKey termKey qualifierKey entryDate).1 = v := by
  rw [createAnnotationRecord_found entryDate hv]

theorem createAnnotationRecord_dict_self (env : Env) (st : LoadState)
    (objectKey termKey qualifierKey : Nat) (entryDate : String) :
    alookup
      ((createAnnotationRecord env st objectKey termKey qualifierKey entryDate).2).annotDict
      (mkAKey env.annotTypeKey objectKey termKey qualifierKey)
      = some (createAnnotationRecord env st objectKey termKey qualifierKey entryDate).1 := by
  cases hl : alookup st.annotDict (mkAKey env.annotTypeKey objectKey termKey qualifierKey)
    with
  | some w => rw [createAnnotationRecord_found entryDate hl]; exact hl
  | none =>
    rw [createAnnotationRecord_new entryDate hl]
    dsimp only
    rw [alookup_cons]
    simp

theorem acceptLine_annot (env : Env) (fl : LoadFlags) (st3 : LoadState)
    (objectKey termKey qualifierKey evidenceKey referenceKey editorKey : Nat)
    (r : ParsedLine) (entryDate line : String) (lineNum : Nat) :
    alookup ((acceptLine env fl st3 objectKey termKey qualifierKey evidenceKey
        referenceKey editorKey r entryDate line lineNum).1).annotDict
        (mkAKey env.annotTypeKey objectKey termKey qualifierKey)
      = some (createAnnotationRecord env st3 objectKey termKey qualifierKey entryDate).1
    ∧ ∀ e ∈ ((acceptLine env fl st3 objectKey termKey qualifierKey evidenceKey
        referenceKey editorKey r entryDate line lineNum).1).evidenceRows.drop
          st3.evidenceRows.length,
        e.annotKey
          = (createAnnotationRecord env st3 objectKey termKey qualifierKey entryDate).1 := by
  unfold acceptLine
  dsimp only
  have hdict : alookup ((createEvidenceRecord env fl
      (createAnnotationRecord env st3 objectKey termKey qualifierKey entryDate).2
      (createAnnotationRecord env st3 objectKey termKey qualifierKey entryDate).1
      evidenceKey referenceKey r.inferredFrom editorKey r.notes r.properties entryDate
      line lineNum).1).annotDict (mkAKey env.annotTypeKey objectKey termKey qualifierKey)
      = some (createAnnotationRecord env st3 objectKey termKey qualifierKey entryDate).1 := by
    rw [createEvidenceRecord_annotDict]
    exact createAnnotationRecord_dict_self env st3 objectKey termKey qualifierKey entryDate
  have hrows : ∀ e ∈ ((createEvidenceRecord env fl
      (createAnnotationRecord env st3 objectKey termKey qualifierKey entryDate).2
      (createAnnotationRecord env st3 objectKey termKey qualifierKey entryDate).1
      evidenceKey referenceKey r.inferredFrom editorKey r.notes r.properties entryDate
      line lineNum).1).evidenceRows.drop st3.evidenceRows.length,
      e.annotKey
        = (createAnnotationRecord env st3 objectKey termKey qualifierKey entryDate).1 := by
    by_cases hdup : elemS (mkEKey fl
        (createAnnotationRecord env st3 objectKey termKey qualifierKey entryDate).1
        evidenceKey referenceKey r.properties r.notes r.inferredFrom)
        ((createAnnotationRecord env st3 objectKey termKey qualifierKey
          entryDate).2).evidenceDict = true
    · rw [createEvidenceRecord_dup hdup]
      dsimp only
      rw [createAnnotationRecord_evidenceRows, List.drop_length]
      intro e he
      exact absurd he (List.not_mem_nil e)
    · rw [createEvidenceRecord_nondup (by simpa using hdup)]
      dsimp only
      rw [createAnnotationRecord_evidenceRows]
      rw [List.drop_left]
      intro e he
      simp only [List.mem_singleton] at he
      subst he
      rfl
  constructor
  · split
    · exact hdict
    · exact hdict
  · split
    · exact hrows
    · exact hrows

theorem processLine_resolved (env : Env) (fl : LoadFlags) (st : LoadState) (lineNum : Nat)
    (line : String) {o t q a : Nat}
    (hres : lineResolved env st lineNum line = some (o, t, q, a)) :
    alookup ((processLine env fl st lineNum line).1).annotDict
        (mkAKey env.annotTypeKey o t q) = some a
    ∧ ∀ e ∈ ((processLine env fl st lineNum line).1).evidenceRows.drop
        st.evidenceRows.length, e.annotKey = a := by
  cases hp : parseLine env st line with
  | none =>
    rw [lineResolved, hp] at hres
    exact absurd hres (by simp)
  | some pr =>
    obtain ⟨r, st1⟩ := pr
    obtain ⟨ldb, hst1⟩ := parseLine_shape hp
    rw [lineResolved, hp] at hres
    rw [processLine, hp]
    simp only [validatePhase_eq] at hres ⊢
    split at hres
    · exact absurd hres (by simp)
    · rename_i hcond
      rw [if_neg hcond]
      simp only [Option.some.injEq, Prod.mk.injEq] at hres
      obtain ⟨ho, ht, hq, ha⟩ := hres
      subst ho
      subst ht
      subst hq
      subst ha
      have hAL := acceptLine_annot env fl
        ({ dictLoadPhase env st1 with
            objectDict := objDictAfter env (dictLoadPhase env st1).objectDict
              (dictLoadPhase env st1).logicalDBKey r.objectID,
            errorLog := (dictLoadPhase env st1).errorLog
              ++ valErrs env (dictLoadPhase env st1).objectDict
                  (dictLoadPhase env st1).logicalDBKey r lineNum line })
        (valKeys env (dictLoadPhase env st1).objectDict
          (dictLoadPhase env st1).logicalDBKey r).2.1
        (valKeys env (dictLoadPhase env st1).objectDict
          (dictLoadPhase env st1).logicalDBKey r).1
        (valKeys env (dictLoadPhase env st1).objectDict
          (dictLoadPhase env st1).logicalDBKey r).2.2.2.2.1
        (valKeys env (dictLoadPhase env st1).objectDict
          (dictLoadPhase env st1).logicalDBKey r).2.2.2.1
        (valKeys env (dictLoadPhase env st1).objectDict
          (dictLoadPhase env st1).logicalDBKey r).2.2.1
        (valKeys env (dictLoadPhase env st1).objectDict
          (dictLoadPhase env st1).logicalDBKey r).2.2.2.2.2
        r (if r.entryDate.length = 0 then env.loaddate else r.entryDate) line lineNum
      refine ⟨hAL.1, ?_⟩
      have he3 : ({ dictLoadPhase env st1 with
          objectDict := objDictAfter env (dictLoadPhase env st1).objectDict
            (dictLoadPhase env st1).logicalDBKey r.objectID,
          errorLog := (dictLoadPhase env st1).errorLog
            ++ valErrs env (dictLoadPhase env st1).objectDict
                (dictLoadPhase env st1).logicalDBKey r lineNum line } :
          LoadState).evidenceRows = st.evidenceRows := by
        show (dictLoadPhase env st1).evidenceRows = st.evidenceRows
        rw [dictLoadPhase_evidenceRows, hst1]
      have h2 := hAL.2
      rw [he3] at h2
      exact h2

theorem lineResolved_reads (env : Env) (st : LoadState) (lineNum : Nat) (line : String)
    {o t q a v : Nat}
    (hres : lineResolved env st lineNum line = some (o, t, q, a))
    (hv : alookup st.annotDict (mkAKey env.annotTypeKey o t q) = some v) : a = v := by
  cases hp : parseLine env st line with
  | none =>
    rw [lineResolved, hp] at hres
    exact absurd hres (by simp)
  | some pr =>
    obtain ⟨r, st1⟩ := pr
    obtain ⟨ldb, hst1⟩ := parseLine_shape hp
    rw [lineResolved, hp] at hres
    simp only [validatePhase_eq] at hres
    split at hres
    · exact absurd hres (by simp)
    · simp only [Option.some.injEq, Prod.mk.injEq] at hres
      obtain ⟨ho, ht, hq, ha⟩ := hres
      subst ho
      subst ht
      subst hq
      refine ha.symm.trans (createAnnotationRecord_fst_of_some ?_)
      show alookup (dictLoadPhase env st1).annotDict
        (mkAKey env.annotTypeKey
          (valKeys env (dictLoadPhase env st1).objectDict
            (dictLoadPhase env st1).logicalDBKey r).2.1
          (valKeys env (dictLoadPhase env st1).objectDict
            (dictLoadPhase env st1).logicalDBKey r).1
          (valKeys env (dictLoadPhase env st1).objectDict
            (dictLoadPhase env st1).logicalDBKey r).2.2.2.2.1) = some v
      have hAD : (dictLoadPhase env st1).annotDict = st.annotDict := by
        rw [dictLoadPhase_annotDict, hst1]
      rw [hAD]
      exact hv

theorem processFileAux_InvA (env : Env) (fl : LoadFlags) :
    ∀ (lines : List String) (st : LoadState) (n : Nat),
      InvA env st → InvA env ((processFileAux env fl st n lines).1) := by
  intro lines
  induction lines with
  | nil => intro st n h; exact h
  | cons l rest ih =>
    intro st n h
    have h1 := processLine_InvA env fl st (n + 1) l h
    rcases hpl : processLine env fl st (n + 1) l with ⟨st1, sr⟩
    rw [hpl] at h1
    cases sr with
    | cont => simpa [processFileAux, hpl] using ih st1 (n + 1) h1
    | exited c => simpa [processFileAux, hpl] using h1
    | crashed => simpa [processFileAux, hpl] using h1

theorem runStates_head (env : Env) (fl : LoadFlags) (lines : List String) (st d : LoadState)
    (n : Nat) : (runStates env fl st n lines).getD 0 d = st := by
  cases lines with
  | nil => rfl
  | cons l rest =>
    rcases hpl : processLine env fl st (n + 1) l with ⟨st1, sr⟩
    cases sr <;> simp [runStates, hpl]

theorem runStates_succ (env : Env) (fl : LoadFlags) :
    ∀ (lines : List String) (st d : LoadState) (n i : Nat),
      i + 1 < (runStates env fl st n lines).length →
      i < lines.length
      ∧ (runStates env fl st n lines).getD (i + 1) d
        = (processLine env fl ((runStates env fl st n lines).getD i d) (n + i + 1)
            (lines.getD i "")).1 := by
  intro lines
  induction lines with
  | nil =>
    intro st d n i h
    simp [runStates] at h
  | cons l rest ih =>
    intro st d n i h
    rcases hpl : processLine env fl st (n + 1) l with ⟨st1, sr⟩
    cases sr with
    | cont =>
      simp only [runStates, hpl] at h ⊢
      cases i with
      | zero =>
        refine ⟨by simp, ?_⟩
        simp only [List.getD_cons_succ, List.getD_cons_zero]
        rw [runStates_head]
        rw [hpl]
      | succ i2 =>
        have hlen : i2 + 1 < (runStates env fl st1 (n + 1) rest).length := by
          simpa using h
        have hih := ih st1 d (n + 1) i2 hlen
        refine ⟨by simpa using hih.1, ?_⟩
        simp only [List.getD_cons_succ]
        rw [show n + (i2 + 1) + 1 = n + 1 + i2 + 1 from by omega]
        exact hih.2
    | exited c =>
      simp only [runStates, hpl] at h ⊢
      have hi : i = 0 := by
        simp at h
        omega
      subst hi
      refine ⟨by simp, ?_⟩
      simp only [List.getD_cons_succ, List.getD_cons_zero]
      rw [hpl]
    | crashed =>
      simp only [runStates, hpl] at h ⊢
      have hi : i = 0 := by
        simp at h
        omega
      subst hi
      refine ⟨by simp, ?_⟩
      simp only [List.getD_cons_succ, List.getD_cons_zero]
      rw [hpl]

theorem runStates_stab (env : Env) (fl : LoadFlags) (lines : List String)
    (st d : LoadState) (n : Nat) {k : String} {v : Nat} :
    ∀ (m m2 : Nat), m ≤ m2 → m2 < (runStates env fl st n lines).length →
      alookup ((runStates env fl st n lines).getD m d).annotDict k = some v →
      alookup ((runStates env fl st n lines).getD m2 d).annotDict k = some v := by
  intro m m2
  induction m2 with
  | zero =>
    intro hle hlen h
    have : m = 0 := Nat.le_zero.mp hle
    subst this
    exact h
  | succ m3 ih =>
    intro hle hlen h
    rcases Nat.lt_or_ge m (m3 + 1) with hlt | hge
    · have hm3 : m ≤ m3 := Nat.lt_succ_iff.mp hlt
      have hstep := (runStates_succ env fl lines st d n m3 hlen).2
      rw [hstep]
      exact processLine_stab env fl _ _ _
        (ih hm3 (Nat.lt_of_succ_lt hlen) h)
    · have : m = m3 + 1 := Nat.le_antisymm hle hge
      subst this
      exact h

/-- Claim C3: within one run, lines resolving to the same
(object, term, qualifier) always attach their evidence to the same annotation
key (part 1); the run emits at most one Annotation row per combination
(part 2: two emitted rows with the same combination are the same row), none
when the combination was already in the pre-loaded store snapshot (part 3);
and every Evidence row an accepted line emits carries that line's resolved
annotation key (part 4). -/
theorem C3_annotation_dedup (env : Env) (fl : LoadFlags) (lines : List String) :
    (∀ i j o t q ai aj,
      i + 1 < (runStates env fl (initState env) 0 lines).length →
      j + 1 < (runStates env fl (initState env) 0 lines).length →
      lineResolved env
        ((runStates env fl (initState env) 0 lines).getD i (initState env)) (i + 1)
        (lines.getD i "") = some (o, t, q, ai) →
      lineResolved env
        ((runStates env fl (initState env) 0 lines).getD j (initState env)) (j + 1)
        (lines.getD j "") = some (o, t, q, aj) →
      ai = aj)
    ∧ (∀ r1 ∈ ((processFile env fl (initState env) lines).1).annotRows,
        ∀ r2 ∈ ((processFile env fl (initState env) lines).1).annotRows,
        r1.objectKey = r2.objectKey → r1.termKey = r2.termKey →
        r1.qualifierKey = r2.qualifierKey → r1 = r2)
    ∧ (∀ r ∈ ((processFile env fl (initState env) lines).1).annotRows,
        alookup env.annotDict0
          (mkAKey env.annotTypeKey r.objectKey r.termKey r.qualifierKey) = none)
    ∧ (∀ i o t q ai,
        i + 1 < (runStates env fl (initState env) 0 lines).length →
        lineResolved env
          ((runStates env fl (initState env) 0 lines).getD i (initState env)) (i + 1)
          (lines.getD i "") = some (o, t, q, ai) →
        ∀ e ∈ (((runStates env fl (initState env) 0 lines).getD (i + 1)
              (initState env)).evidenceRows).drop
            (((runStates env fl (initState env) 0 lines).getD i
              (initState env)).evidenceRows.length),
          e.annotKey = ai) := by
  have hInit : InvA env (initState env) := by
    refine ⟨?_, ?_, ?_, ?_, ?_⟩
    · intro r hr; exact absurd hr (List.not_mem_nil r)
    · intro r hr; exact absurd hr (List.not_mem_nil r)
    · intro r hr; exact absurd hr (List.not_mem_nil r)
    · intro r hr; exact absurd hr (List.not_mem_nil r)
    · intro k hk; exact hk
  have hInv := processFileAux_InvA env fl lines (initState env) 0 hInit
  refine ⟨?_, ?_, ?_, ?_⟩
  · intro i j o t q ai aj hi hj hri hrj
    rcases Nat.lt_trichotomy i j with hij | hij | hij
    · have h1 := (processLine_resolved env fl
        ((runStates env fl (initState env) 0 lines).getD i (initState env)) (i + 1)
        (lines.getD i "") hri).1
      have hstep := (runStates_succ env fl lines (initState env) (initState env) 0 i hi).2
      simp only [Nat.zero_add] at hstep
      rw [← hstep] at h1
      have h2 := runStates_stab env fl lines (initState env) (initState env) 0
        (i + 1) j (by omega) (by omega) h1
      exact (lineResolved_reads env _ (j + 1) (lines.getD j "") hrj h2).symm
    · subst hij
      rw [hri] at hrj
      simpa using hrj
    · have h1 := (processLine_resolved env fl
        ((runStates env fl (initState env) 0 lines).getD j (initState env)) (j + 1)
        (lines.getD j "") hrj).1
      have hstep := (runStates_succ env fl lines (initState env) (initState env) 0 j hj).2
      simp only [Nat.zero_add] at hstep
      rw [← hstep] at h1
      have h2 := runStates_stab env fl lines (initState env) (initState env) 0
        (j + 1) i (by omega) (by omega) h1
      exact lineResolved_reads env _ (i + 1) (lines.getD i "") hri h2
  · intro r1 hr1 r2 hr2 ho ht hq
    have k1 := hInv.1 r1 hr1
    have k2 := hInv.1 r2 hr2
    rw [ho, ht, hq] at k1
    rw [k2] at k1
    exact hInv.2.2.1 r1 hr1 r2 hr2 (Option.some.inj k1.symm)
  · exact hInv.2.2.2.1
  · intro i o t q ai hi hres
    have h2 := (processLine_resolved env fl
      ((runStates env fl (initState env) 0 lines).getD i (initState env)) (i + 1)
      (lines.getD i "") hres).2
    have hstep := (runStates_succ env fl lines (initState env) (initState env) 0 i hi).2
    simp only [Nat.zero_add] at hstep
    rw [← hstep] at h2
    exact h2

/-- Witness for C3: two concrete lines resolving to the same
(object 71, term 11, qualifier 41) both use annotation key 100, and the
evidence row of line 1 carries key 100. -/
theorem C3_witness :
    lineResolved env0
      ((runStates env0 (initFlags "Standard") (initState env0) 0 [goodLine, goodLine2]).getD
        0 (initState env0)) 1 ([goodLine, goodLine2].getD 0 "") = some (71, 11, 41, 100)
    ∧ lineResolved env0
      ((runStates env0 (initFlags "Standard") (initState env0) 0 [goodLine, goodLine2]).getD
        1 (initState env0)) 2 ([goodLine, goodLine2].getD 1 "") = some (71, 11, 41, 100)
    ∧ (100 : Nat) = 100
    ∧ (∀ e ∈ (((runStates env0 (initFlags "Standard") (initState env0) 0
          [goodLine, goodLine2]).getD 1 (initState env0)).evidenceRows).drop
        (((runStates env0 (initFlags "Standard") (initState env0) 0
          [goodLine, goodLine2]).getD 0 (initState env0)).evidenceRows.length),
        e.annotKey = 100) :=
  ⟨by decide, by decide,
    (C3_annotation_dedup env0 (initFlags "Standard") [goodLine, goodLine2]).1 0 1 71 11 41
      100 100 (by decide) (by decide) (by decide) (by decide),
    (C3_annotation_dedup env0 (initFlags "Standard") [goodLine, goodLine2]).2.2.2 0 71 11
      41 100 (by decide) (by decide)⟩

/-! ### Decimal-string lemmas (C4)

The evidence dedup keys are colon-joined strings whose first component is the
decimal rendering of the annotation key.  These lemmas recover the annotation
key from the key string: decimal digit strings never contain a colon and
`natStr` is injective. -/

theorem natDigitsAux_lt10 : ∀ (f n : Nat), ∀ d ∈ natDigitsAux f n, d < 10 := by
  intro f
  induction f with
  | zero => intro n d hd; simp [natDigitsAux] at hd
  | succ f2 ih =>
    intro n d hd
    rw [natDigitsAux] at hd
    split at hd
    · rename_i hn
      simp only [List.mem_singleton] at hd
      omega
    · simp only [List.mem_append, List.mem_singleton] at hd
      rcases hd with hd | hd
      · exact ih _ d hd
      · subst hd
        exact Nat.mod_lt _ (by omega)

theorem natDigits_lt10 (n : Nat) : ∀ d ∈ natDigits n, d < 10 := natDigitsAux_lt10 _ n

theorem foldl_natDigitsAux : ∀ (f n a : Nat), n < f →
    List.foldl (fun x d => 10 * x + d) a (natDigitsAux f n)
      = a * 10 ^ (natDigitsAux f n).length + n := by
  intro f
  induction f with
  | zero => intro n a h; exact absurd h (Nat.not_lt_zero n)
  | succ f2 ih =>
    intro n a h
    rw [natDigitsAux]
    split
    · rename_i hn
      simp [List.foldl]
      ring
    · rename_i hn
      push_neg at hn
      have hdiv : n / 10 < f2 := by
        have h1 : n / 10 < n := Nat.div_lt_self (by omega) (by omega)
        omega
      rw [List.foldl_append, ih (n / 10) a hdiv]
      simp only [List.foldl, List.length_append, List.length_singleton]
      rw [pow_succ]
      have hmod := Nat.div_add_mod n 10
      ring_nf
      omega

theorem ofDigits_natDigits (n : Nat) : ofDigits (natDigits n) = n := by
  unfold ofDigits natDigits
  rw [foldl_natDigitsAux (n + 1) n 0 (Nat.lt_succ_self n)]
  simp

theorem natDigits_inj {m n : Nat} (h : natDigits m = natDigits n) : m = n := by
  have hm := ofDigits_natDigits m
  rw [h, ofDigits_natDigits] at hm
  exact hm.symm

theorem digitChar_inj : ∀ a < 10, ∀ b < 10, Nat.digitChar a = Nat.digitChar b → a = b := by
  decide

theorem map_digitChar_inj : ∀ (l1 l2 : List Nat), (∀ d ∈ l1, d < 10) → (∀ d ∈ l2, d < 10) →
    l1.map Nat.digitChar = l2.map Nat.digitChar → l1 = l2 := by
  intro l1
  induction l1 with
  | nil =>
    intro l2 _ _ h
    cases l2 with
    | nil => rfl
    | cons d t => simp at h
  | cons d t ih =>
    intro l2 h1 h2 h
    cases l2 with
    | nil => simp at h
    | cons d2 t2 =>
      simp only [List.map_cons, List.cons.injEq] at h
      have hd := digitChar_inj d (h1 d (List.mem_cons_self _ _)) d2
        (h2 d2 (List.mem_cons_self _ _)) h.1
      rw [hd, ih t2 (fun x hx => h1 x (List.mem_cons_of_mem _ hx))
        (fun x hx => h2 x (List.mem_cons_of_mem _ hx)) h.2]

theorem digitChar_ne_colon : ∀ d < 10, Nat.digitChar d ≠ ':' := by decide

theorem natStr_no_colon (n : Nat) : ':' ∉ (natStr n).data := by
  intro hc
  have hm : ':' ∈ (natDigits n).map Nat.digitChar := hc
  simp only [List.mem_map] at hm
  obtain ⟨d, hd, he⟩ := hm
  exact digitChar_ne_colon d (natDigits_lt10 n d hd) he

theorem colon_split_inj : ∀ (u v r r2 : List Char), ':' ∉ u → ':' ∉ v →
    u ++ ':' :: r = v ++ ':' :: r2 → u = v := by
  intro u
  induction u with
  | nil =>
    intro v r r2 _ hv h
    cases v with
    | nil => rfl
    | cons c t =>
      simp only [List.nil_append, List.cons_append, List.cons.injEq] at h
      exact absurd (h.1 ▸ List.mem_cons_self c t) hv
  | cons c t ih =>
    intro v r r2 hu hv h
    cases v with
    | nil =>
      simp only [List.nil_append, List.cons_append, List.cons.injEq] at h
      exact absurd (h.1 ▸ List.mem_cons_self c t) hu
    | cons c2 t2 =>
      simp only [List.cons_append, List.cons.injEq] at h
      rw [h.1, ih t2 r r2 (fun hx => hu (List.mem_cons_of_mem _ hx))
        (fun hx => hv (List.mem_cons_of_mem _ hx)) h.2]

theorem natStr_colon_inj {a b : Nat} {r r2 : List Char}
    (h : (natStr a).data ++ ':' :: r = (natStr b).data ++ ':' :: r2) : a = b := by
  have hu := colon_split_inj _ _ _ _ (natStr_no_colon a) (natStr_no_colon b) h
  exact natDigits_inj (map_digitChar_inj _ _ (natDigits_lt10 a) (natDigits_lt10 b) hu)

theorem str_data_append (s t : String) : (s ++ t).data = s.data ++ t.data := by
  cases s
  cases t
  rfl

theorem mkEKey_data (fl : LoadFlags) (a e rk : Nat) (props notes inf : String) :
    ∃ rest, (mkEKey fl a e rk props notes inf).data = (natStr a).data ++ ':' :: rest := by
  unfold mkEKey
  split
  · exact ⟨(natStr e).data ++ ':' :: ((natStr rk).data ++ ':' :: props.data),
      by simp [str_data_append]⟩
  · split
    · exact ⟨(natStr e).data ++ ':' :: ((natStr rk).data ++ ':'
        :: (props.data ++ ':' :: notes.data)), by simp [str_data_append]⟩
    · split
      · exact ⟨(natStr e).data ++ ':' :: ((natStr rk).data ++ ':'
          :: (props.data ++ ':' :: inf.data)), by simp [str_data_append]⟩
      · exact ⟨(natStr e).data ++ ':' :: (natStr rk).data, by simp [str_data_append]⟩

theorem elemS_eq_true_iff (k : String) : ∀ l : List String, elemS k l = true ↔ k ∈ l := by
  intro l
  induction l with
  | nil => simp [elemS]
  | cons h t ih => simp [elemS, ih]

theorem InvB_congr {env : Env} {st st2 : LoadState} (h : InvB env st)
    (h1 : st2.annotDict = st.annotDict) (h2 : st2.annotKey = st.annotKey)
    (h3 : st2.evidenceDict = st.evidenceDict) (h4 : st2.annotRows = st.annotRows)
    (h5 : st2.evidenceRows = st.evidenceRows) : InvB env st2 := by
  unfold InvB at h ⊢
  rw [h1, h2, h3, h4, h5]
  exact h

theorem InvB_extend {env : Env} {st3 : LoadState} {fl : LoadFlags}
    {u evidenceKey referenceKey : Nat} {props notes inf : String}
    (h : InvB env st3) (hu : u < st3.annotKey) {st2 : LoadState}
    (h1 : st2.annotDict = st3.annotDict) (h2 : st2.annotKey = st3.annotKey)
    (h3 : st2.evidenceDict
      = mkEKey fl u evidenceKey referenceKey props notes inf :: st3.evidenceDict)
    (h4 : st2.annotRows = st3.annotRows)
    (h5 : ∃ tailrows, st2.evidenceRows = st3.evidenceRows ++ tailrows) :
    InvB env st2 := by
  obtain ⟨tailrows, h5⟩ := h5
  refine ⟨?_, ?_, ?_⟩
  · rw [h1, h2]
    exact h.1
  · rw [h3, h2]
    intro k hk
    rcases List.mem_cons.mp hk with hk | hk
    · subst hk
      obtain ⟨rest, hrest⟩ := mkEKey_data fl u evidenceKey referenceKey props notes inf
      exact ⟨u, rest, hu, hrest⟩
    · exact h.2.1 k hk
  · rw [h4, h5]
    intro rr hrr
    obtain ⟨e, he, heq⟩ := h.2.2 rr hrr
    exact ⟨e, List.mem_append_left _ he, heq⟩

theorem InvB_new {env : Env} {st3 : LoadState} {fl : LoadFlags} {aKey : String}
    {evidenceKey referenceKey : Nat} {props notes inf : String}
    (h : InvB env st3) {st2 : LoadState}
    (h1 : st2.annotDict = (aKey, st3.annotKey) :: st3.annotDict)
    (h2 : st2.annotKey = st3.annotKey + 1)
    (h3 : st2.evidenceDict
      = mkEKey fl st3.annotKey evidenceKey referenceKey props notes inf
          :: st3.evidenceDict)
    (h4 : ∃ row, st2.annotRows = st3.annotRows ++ [row] ∧ row.annotKey = st3.annotKey)
    (h5 : ∃ erow tailrows, st2.evidenceRows = st3.evidenceRows ++ erow :: tailrows
      ∧ erow.annotKey = st3.annotKey) :
    InvB env st2 := by
  obtain ⟨row, h4, hrow⟩ := h4
  obtain ⟨erow, tailrows, h5, herow⟩ := h5
  refine ⟨?_, ?_, ?_⟩
  · rw [h1, h2]
    intro p hp
    rcases List.mem_cons.mp hp with hp | hp
    · subst hp
      exact Nat.lt_succ_self _
    · exact Nat.lt_succ_of_lt (h.1 p hp)
  · rw [h3, h2]
    intro k hk
    rcases List.mem_cons.mp hk with hk | hk
    · subst hk
      obtain ⟨rest, hrest⟩ :=
        mkEKey_data fl st3.annotKey evidenceKey referenceKey props notes inf
      exact ⟨st3.annotKey, rest, Nat.lt_succ_self _, hrest⟩
    · obtain ⟨a, rest, ha, hrest⟩ := h.2.1 k hk
      exact ⟨a, rest, Nat.lt_succ_of_lt ha, hrest⟩
  · rw [h4, h5]
    intro rr hrr
    rcases List.mem_append.mp hrr with hrr | hrr
    · obtain ⟨e, he, heq⟩ := h.2.2 rr hrr
      exact ⟨e, List.mem_append_left _ he, heq⟩
    · simp only [List.mem_singleton] at hrr
      subst hrr
      exact ⟨erow, List.mem_append_right _ (List.mem_cons_self _ _),
        herow.trans hrow.symm⟩

theorem acceptLine_invB {env : Env} {fl : LoadFlags} {st3 : LoadState}
    {objectKey termKey qualifierKey evidenceKey referenceKey editorKey : Nat}
    {r : ParsedLine} {entryDate line : String} {lineNum : Nat} (h : InvB env st3) :
    InvB env ((acceptLine env fl st3 objectKey termKey qualifierKey evidenceKey
      referenceKey editorKey r entryDate line lineNum).1) := by
  unfold acceptLine
  dsimp only
  cases hl : alookup st3.annotDict (mkAKey env.annotTypeKey objectKey termKey qualifierKey)
    with
  | some u =>
    rw [createAnnotationRecord_found entryDate hl]
    dsimp only
    have hu : u < st3.annotKey := h.1 _ (alookup_mem hl)
    by_cases hdup : elemS (mkEKey fl u evidenceKey referenceKey r.properties r.notes
        r.inferredFrom) st3.evidenceDict = true
    · rw [createEvidenceRecord_dup hdup]
      split
      · rename_i hcon
        exact absurd hcon (by simp)
      · exact InvB_congr h rfl rfl rfl rfl rfl
    · rw [createEvidenceRecord_nondup (by simpa using hdup)]
      split
      · exact InvB_extend h hu rfl rfl rfl rfl ⟨_, rfl⟩
      · exact InvB_extend h hu rfl rfl rfl rfl ⟨_, rfl⟩
  | none =>
    rw [createAnnotationRecord_new entryDate hl]
    dsimp only
    have hnd : elemS (mkEKey fl st3.annotKey evidenceKey referenceKey r.properties
        r.notes r.inferredFrom) st3.evidenceDict = false := by
      cases he : elemS (mkEKey fl st3.annotKey evidenceKey referenceKey r.properties
          r.notes r.inferredFrom) st3.evidenceDict with
      | false => rfl
      | true =>
        exfalso
        have hmem := (elemS_eq_true_iff _ _).mp he
        obtain ⟨a2, rest2, ha2, hdata⟩ := h.2.1 _ hmem
        obtain ⟨rest3, hdata3⟩ := mkEKey_data fl st3.annotKey evidenceKey referenceKey
          r.properties r.notes r.inferredFrom
        have heq := natStr_colon_inj (hdata3.symm.trans hdata)
        omega
    rw [createEvidenceRecord_nondup
      (show elemS (mkEKey fl st3.annotKey evidenceKey referenceKey r.properties
          r.notes r.inferredFrom)
        (LoadState.evidenceDict ({ st3 with
            annotDict := (mkAKey env.annotTypeKey objectKey termKey qualifierKey,
              st3.annotKey) :: st3.annotDict
            annotKey := st3.annotKey + 1
            annotRows := st3.annotRows ++
              [(⟨st3.annotKey, env.annotTypeKey, objectKey, termKey, qualifierKey,
                entryDate⟩ : AnnotRow)] } : LoadState)) = false from hnd)]
    split
    · exact InvB_new h rfl rfl rfl ⟨_, rfl, rfl⟩ ⟨_, [], rfl, rfl⟩
    · exact InvB_new h rfl rfl rfl ⟨_, rfl, rfl⟩ ⟨_, [], rfl, rfl⟩

theorem processLine_invB (env : Env) (fl : LoadFlags) (st : LoadState) (lineNum : Nat)
    (line : String) (h : InvB env st) : InvB env (processLine env fl st lineNum line).1 := by
  cases hp : parseLine env st line with
  | none =>
    rw [processLine, hp]
    exact InvB_congr h rfl rfl rfl rfl rfl
  | some pr =>
    obtain ⟨r, st1⟩ := pr
    obtain ⟨ldb, hst1⟩ := parseLine_shape hp
    have h1 : InvB env st1 :=
      InvB_congr h (by rw [hst1]) (by rw [hst1]) (by rw [hst1]) (by rw [hst1])
        (by rw [hst1])
    have h2 : InvB env (dictLoadPhase env st1) :=
      InvB_congr h1 (dictLoadPhase_annotDict env st1) (dictLoadPhase_annotKey env st1)
        (dictLoadPhase_evidenceDict env st1) (dictLoadPhase_annotRows env st1)
        (dictLoadPhase_evidenceRows env st1)
    rw [processLine, hp]
    simp only [validatePhase_eq]
    split
    · exact InvB_congr h2 rfl rfl rfl rfl rfl
    · exact acceptLine_invB (InvB_congr h2 rfl rfl rfl rfl rfl)

theorem processFileAux_invB (env : Env) (fl : LoadFlags) :
    ∀ (lines : List String) (st : LoadState) (n : Nat),
      InvB env st → InvB env ((processFileAux env fl st n lines).1) := by
  intro lines
  induction lines with
  | nil => intro st n h; exact h
  | cons l rest ih =>
    intro st n h
    have h1 := processLine_invB env fl st (n + 1) l h
    rcases hpl : processLine env fl st (n + 1) l with ⟨st1, sr⟩
    rw [hpl] at h1
    cases sr with
    | cont => simpa [processFileAux, hpl] using ih st1 (n + 1) h1
    | exited c => simpa [processFileAux, hpl] using h1
    | crashed => simpa [processFileAux, hpl] using h1

/-- Claim C4: provided the initial surrogate annotation counter (drawn from
the store sequence) is above every annotation key cached from the store —
both in the annotation snapshot and in the annotation-key prefix of every
pre-loaded evidence dedup key — every Annotation row the run emits has at
least one emitted Evidence row referencing its annotation key. -/
theorem C4_annotation_has_evidence (env : Env) (fl : LoadFlags) (lines : List String)
    (hA : ∀ p ∈ env.annotDict0, p.2 < env.annotKey0)
    (hE : ∀ k ∈ env.evidenceDict0, ∃ a rest, a < env.annotKey0
      ∧ k.data = (natStr a).data ++ ':' :: rest) :
    ∀ r ∈ ((processFile env fl (initState env) lines).1).annotRows,
      ∃ e ∈ ((processFile env fl (initState env) lines).1).evidenceRows,
        e.annotKey = r.annotKey := by
  have hInit : InvB env (initState env) := by
    refine ⟨hA, hE, ?_⟩
    intro r hr
    exact absurd hr (List.not_mem_nil r)
  exact (processFileAux_invB env fl lines (initState env) 0 hInit).2.2

/-- Witness for C4: with empty store snapshots (so the counter hypotheses hold
vacuously) and one valid input line, the single emitted Annotation row has its
Evidence row. -/
theorem C4_witness :
    (∀ p ∈ env0.annotDict0, p.2 < env0.annotKey0)
    ∧ (∀ k ∈ env0.evidenceDict0, ∃ a rest, a < env0.annotKey0
        ∧ k.data = (natStr a).data ++ ':' :: rest)
    ∧ (∀ r ∈ ((processFile env0 (initFlags "Standard") (initState env0)
          [goodLine]).1).annotRows,
        ∃ e ∈ ((processFile env0 (initFlags "Standard") (initState env0)
            [goodLine]).1).evidenceRows,
          e.annotKey = r.annotKey) :=
  ⟨by decide, by simp [env0], C4_annotation_has_evidence env0 (initFlags "Standard")
    [goodLine] (by decide) (by simp [env0])⟩

end Annotload
